import Mathlib

/-!
Verification development for the `hdfscontents` repository (a Jupyter
contents manager storing notebooks on HDFS).

The remote filesystem is modelled as an association list from absolute
backend paths (lists of characters, mirroring Python `str`) to entries:
a file carries its byte content (bytes as `Nat`, meaningful values `< 256`)
and its permission bits, a directory carries permission bits.  Every
backend call used by the repository (`exists`, `open_file`, `delete`,
`move`, `chmod`, `create_directory`, `ls`) is given a pure state-passing
model; Python exceptions become an `Option Err` / `Except Err` result
threaded together with the (possibly partially mutated) state, matching
the fact that in Python the filesystem mutations performed before an
exception persist.

Not modelled (external to the algorithms under verification): the
backend's implicit creation of parent directories on `open`/`mkdir`
(states are simply taken to already contain the ancestors they need),
permission-denied errors of the backend (no claim concerns the 403
translation), file handles, and timestamps in checkpoint metadata.
-/

abbrev Bytes := List Nat

abbrev HPath := List Char

inductive Entry where
  | file (content : Bytes) (perm : Nat)
  | dir (perm : Nat)
deriving DecidableEq, Repr

def Entry.setPerm : Entry → Nat → Entry
  | .file c _, b => .file c b
  | .dir _, b => .dir b

def Entry.perm : Entry → Nat
  | .file _ p => p
  | .dir p => p

abbrev FS := List (HPath × Entry)

def FS.find : FS → HPath → Option Entry
  | [], _ => none
  | (q, e) :: rest, p => if q = p then some e else FS.find rest p

def FS.eraseKey : FS → HPath → FS
  | [], _ => []
  | ke :: rest, p => if ke.1 = p then FS.eraseKey rest p else ke :: FS.eraseKey rest p

def FS.set (fs : FS) (p : HPath) (e : Entry) : FS :=
  (p, e) :: FS.eraseKey fs p

/-- `leads a b` is true iff the character list `a` is an initial segment of `b`. -/
def leads : HPath → HPath → Bool
  | [], _ => true
  | _ :: _, [] => false
  | a :: as, b :: bs => a == b && leads as bs

/-- Whether `p` is `root` itself or lies strictly below the directory `root`. -/
def isDescendant (root p : HPath) : Bool :=
  root == p || leads (root ++ ['/']) p

def FS.eraseTree : FS → HPath → FS
  | [], _ => []
  | ke :: rest, root =>
    if isDescendant root ke.1 = true then FS.eraseTree rest root
    else ke :: FS.eraseTree rest root

def FS.moveTree : FS → HPath → HPath → FS
  | [], _, _ => []
  | ke :: rest, src, dst =>
    if isDescendant src ke.1 = true then
      (dst ++ ke.1.drop src.length, ke.2) :: FS.moveTree rest src dst
    else ke :: FS.moveTree rest src dst

def chmodTree : FS → HPath → FS
  | [], _ => []
  | ke :: rest, root =>
    if isDescendant root ke.1 = true then (ke.1, ke.2.setPerm 0o770) :: chmodTree rest root
    else ke :: chmodTree rest root

inductive Err where
  | backendMissing
  | backendExists
  | notADirectory
  | unreadableNotebook
  | badFormat
  | badFormatArg
  | encodingError
  | notAFile
  | directoryNotEmpty
  | fileNotFound
  | checkpointNotFound
  | alreadyExists
  | renameFailed
  | saveFailed
  | userError (n : Nat)
  | outOfFuel
deriving DecidableEq, Repr

/-- Permission bits the backend assigns to a freshly created entry
(before the repository's explicit `chmod 0o770` calls). -/
def defaultNewPerm : Nat := 0o644

/-- Model of `hdfs.delete` (pydoop, recursive by default): errors when the
path is absent, otherwise removes the entry and everything below it. -/
def fsDelete (fs : FS) (p : HPath) : FS × Option Err :=
  match FS.find fs p with
  | some _ => (FS.eraseTree fs p, none)
  | none => (fs, some .backendMissing)

/-- Model of `hdfs.move`: errors when the source is absent or the
destination already exists, otherwise relocates the subtree. -/
def fsMove (fs : FS) (src dst : HPath) : FS × Option Err :=
  match FS.find fs src with
  | none => (fs, some .backendMissing)
  | some _ =>
    match FS.find fs dst with
    | some _ => (fs, some .backendExists)
    | none => (FS.moveTree fs src dst, none)

/-- Model of `hdfs.chmod`. -/
def fsChmod (fs : FS) (p : HPath) (bits : Nat) : FS × Option Err :=
  match FS.find fs p with
  | some e => (FS.set fs p (e.setPerm bits), none)
  | none => (fs, some .backendMissing)

/-- Model of `hdfs.open_file(p, 'w')` followed by writing `content` and
closing: creates/truncates the file; fails if a directory occupies `p`. -/
def fsCreateFile (fs : FS) (p : HPath) (content : Bytes) : FS × Option Err :=
  match FS.find fs p with
  | some (.dir _) => (fs, some .backendExists)
  | _ => (FS.set fs p (.file content defaultNewPerm), none)

/-- Model of `hdfs.create_directory`. -/
def fsMkdir (fs : FS) (p : HPath) : FS × Option Err :=
  (FS.set fs p (.dir defaultNewPerm), none)

/-- Model of `str.strip('/')`. -/
def stripSlashes (p : HPath) : HPath :=
  ((p.dropWhile (fun c => c == '/')).reverse.dropWhile (fun c => c == '/')).reverse

/-- Model of `s.rsplit('/', 1)` unpacked into (before, after) the last `'/'`
(when `s` has no `'/'` the pair is `([], s)`; callers only use it on
strings that contain a `'/'` or only need the second component). -/
def rsplitSlash1 (p : HPath) : HPath × HPath :=
  let r := p.reverse
  let base := (r.takeWhile (fun c => ! (c == '/'))).reverse
  match r.dropWhile (fun c => ! (c == '/')) with
  | [] => ([], base)
  | _ :: t => (t.reverse, base)

/-- `longentry.strip('/').rsplit('/', 1)[-1]` style last path component. -/
def lastComponent (p : HPath) : HPath := (rsplitSlash1 p).2

/-- Model of `os.path.split` (posix). -/
def pathSplit (p : HPath) : HPath × HPath :=
  let r := p.reverse
  let base := (r.takeWhile (fun c => ! (c == '/'))).reverse
  let headAll := (r.dropWhile (fun c => ! (c == '/'))).reverse
  let head :=
    if headAll.all (fun c => c == '/') then headAll
    else (headAll.reverse.dropWhile (fun c => c == '/')).reverse
  (head, base)

/-- Model of `os.path.join` (posix) for two components. -/
def pyJoin (a b : HPath) : HPath :=
  if leads ['/'] b then b
  else if a = [] then b
  else if a.getLast? = some '/' then a ++ b
  else a ++ '/' :: b

/-- Model of `os.path.splitext` (posix) applied to a basename. -/
def splitext (name : HPath) : HPath × HPath :=
  let r := name.reverse
  let extRev := r.takeWhile (fun c => ! (c == '.'))
  if extRev.length = r.length then (name, [])
  else
    let pre := (r.drop (extRev.length + 1)).reverse
    if pre.all (fun c => c == '.') then (name, [])
    else (pre, '.' :: extRev.reverse)

/-- Model of `notebook.utils.to_os_path`: strip slashes, split into
segments, drop empty segments, and join them onto the root. -/
def to_os_path (root p : HPath) : HPath :=
  (((stripSlashes p).splitOn '/').filter (fun seg => ! seg.isEmpty)).foldl pyJoin root

/-- Model of `hdfsio.path_to_intermediate`: `.~` prefixed sibling. -/
def path_to_intermediate (p : HPath) : HPath :=
  pyJoin (pathSplit p).1 ('.' :: '~' :: (pathSplit p).2)

/-- Model of `hdfsio.path_to_invalid`: `.invalid` suffixed sibling. -/
def path_to_invalid (p : HPath) : HPath :=
  pyJoin (pathSplit p).1 ((pathSplit p).2 ++ ['.', 'i', 'n', 'v', 'a', 'l', 'i', 'd'])

/-- Model of `hdfsio.hdfs_file_exists` (and `_hdfs_file_exists`). -/
def hdfs_file_exists (fs : FS) (p : HPath) : Bool :=
  match FS.find fs p with
  | some (.file _ _) => true
  | _ => false

/-- Model of `_hdfs_dir_exists`. -/
def hdfs_dir_exists (fs : FS) (p : HPath) : Bool :=
  match FS.find fs p with
  | some (.dir _) => true
  | _ => false

/-- Model of `hdfsio.hdfs_copy_file`: open `dst` for write (truncating it),
stream `src` into it, then `chmod dst 0o770`.  When opening `src` fails the
already-truncated `dst` is left behind, as in the source. -/
def hdfs_copy_file (fs : FS) (src dst : HPath) : FS × Option Err :=
  match fsCreateFile fs dst [] with
  | (fs1, some e) => (fs1, some e)
  | (fs1, none) =>
    match FS.find fs1 src with
    | some (.file c _) => fsChmod (FS.set fs1 dst (.file c defaultNewPerm)) dst 0o770
    | _ => (fs1, some .backendMissing)

/-- Model of `hdfsio.hdfs_replace_file`: delete `dst`, move `src` onto it,
`chmod 0o770`. -/
def hdfs_replace_file (fs : FS) (src dst : HPath) : FS × Option Err :=
  match fsDelete fs dst with
  | (fs1, some e) => (fs1, some e)
  | (fs1, none) =>
    match fsMove fs1 src dst with
    | (fs2, some e) => (fs2, some e)
    | (fs2, none) => fsChmod fs2 dst 0o770

/-- Outcome of the caller's write scope inside a writing context manager:
either it writes `data` and returns, or it writes a partial chunk
and raises `e`. -/
inductive BodyOutcome where
  | ok (data : Bytes)
  | fail (partWritten : Bytes) (e : Err)

def BodyOutcome.written : BodyOutcome → Bytes
  | .ok d => d
  | .fail part _ => part

/-- Model of `hdfsio.atomic_writing`: back the old file up to the
intermediate path, truncate-write the target, and on an error escaping the
scope close + `hdfs_replace_file` the backup onto the target and re-raise;
on success `chmod 0o770` and delete the backup if present.  As in Python,
if the restoring `hdfs_replace_file` itself raises (no backup exists), that
error propagates instead of the original one. -/
def atomic_writing (fs : FS) (p : HPath) (body : BodyOutcome) : FS × Option Err :=
  let tmp := path_to_intermediate p
  match (if hdfs_file_exists fs p then hdfs_copy_file fs p tmp else (fs, none)) with
  | (fs1, some e) => (fs1, some e)
  | (fs1, none) =>
    match fsCreateFile fs1 p body.written with
    | (fs2, some e) => (fs2, some e)
    | (fs2, none) =>
      match body with
      | .fail _ e =>
        match hdfs_replace_file fs2 tmp p with
        | (fs3, some e2) => (fs3, some e2)
        | (fs3, none) => (fs3, some e)
      | .ok _ =>
        match fsChmod fs2 p 0o770 with
        | (fs3, some e) => (fs3, some e)
        | (fs3, none) =>
          if hdfs_file_exists fs3 tmp then fsDelete fs3 tmp else (fs3, none)

/-- Model of `hdfsio._simple_writing`: truncate-write in place, `chmod` on
success, propagate the body's error on failure. -/
def simple_writing (fs : FS) (p : HPath) (body : BodyOutcome) : FS × Option Err :=
  match fsCreateFile fs p body.written with
  | (fs1, some e) => (fs1, some e)
  | (fs1, none) =>
    match body with
    | .fail _ e => (fs1, some e)
    | .ok _ => fsChmod fs1 p 0o770

/-- Model of `HDFSManagerMixin.atomic_writing`: dispatch on
`use_atomic_writing` (the `perm_to_403` wrapper is the identity here since
backend permission errors are not modelled). -/
def mixin_atomic_writing (useAtomic : Bool) (fs : FS) (p : HPath) (body : BodyOutcome) :
    FS × Option Err :=
  if useAtomic then atomic_writing fs p body else simple_writing fs p body

/-- Model of `_hdfs_move_file`: delete an existing destination, move, then
`chmod 0o770` everything `hdfs.walk` yields under the destination. -/
def hdfs_move_file (fs : FS) (src dst : HPath) : FS × Option Err :=
  match (if (FS.find fs dst).isSome then fsDelete fs dst else (fs, none)) with
  | (fs1, some e) => (fs1, some e)
  | (fs1, none) =>
    match fsMove fs1 src dst with
    | (fs2, some e) => (fs2, some e)
    | (fs2, none) => (chmodTree fs2 dst, none)

/-- Model of `_hdfs_ensure_dir_exists`: create (+`chmod 0o770`) when
absent; error when a non-directory occupies the path. -/
def hdfs_ensure_dir_exists (fs : FS) (p : HPath) : FS × Option Err :=
  if (FS.find fs p).isSome = false then
    match fsMkdir fs p with
    | (fs1, some e) => (fs1, some e)
    | (fs1, none) => fsChmod fs1 p 0o770
  else if hdfs_dir_exists fs p = false then (fs, some .notADirectory)
  else (fs, none)

/-- Model of `_read_notebook`.  `parse` abstracts `nbformat.read` (parsed
notebooks are abstracted to `Nat`).  The source recurses after corruption
recovery; recursion depth is bounded by `fuel` (the recursion can in fact
fire at most once, since recovery consumes the intermediate file). -/
def read_notebook (parse : Bytes → Option Nat) (useAtomic : Bool) :
    Nat → FS → HPath → FS × Except Err Nat
  | 0, fs, _ => (fs, .error .outOfFuel)
  | fuel + 1, fs, p =>
    match FS.find fs p with
    | some (.file c _) =>
      match parse c with
      | some nb => (fs, .ok nb)
      | none =>
        if useAtomic = false ∨ FS.find fs (path_to_intermediate p) = none then
          (fs, .error .unreadableNotebook)
        else
          match hdfs_move_file fs p (path_to_invalid p) with
          | (fs1, some e) => (fs1, .error e)
          | (fs1, none) =>
            match hdfs_move_file fs1 (path_to_intermediate p) p with
            | (fs2, some e) => (fs2, .error e)
            | (fs2, none) => read_notebook parse useAtomic fuel fs2 p
    | _ => (fs, .error .backendMissing)

/-- Base64 alphabet, index to ASCII code (models the `base64` module's
standard alphabet). -/
def b64Char (n : Nat) : Nat :=
  if n < 26 then 65 + n
  else if n < 52 then 97 + (n - 26)
  else if n < 62 then 48 + (n - 52)
  else if n = 62 then 43
  else 47

/-- ASCII code back to alphabet index. -/
def b64Val (c : Nat) : Option Nat :=
  if 65 ≤ c ∧ c ≤ 90 then some (c - 65)
  else if 97 ≤ c ∧ c ≤ 122 then some (c - 97 + 26)
  else if 48 ≤ c ∧ c ≤ 57 then some (c - 48 + 52)
  else if c = 43 then some 62
  else if c = 47 then some 63
  else none

/-- Model of `base64.encodebytes` (modulo the cosmetic newlines it inserts,
which `decodebytes` discards): bytes to ASCII codes, `61` is `'='`. -/
def b64Encode : Bytes → Bytes
  | a :: b :: c :: rest =>
    b64Char (a / 4) :: b64Char (a % 4 * 16 + b / 16) ::
      b64Char (b % 16 * 4 + c / 64) :: b64Char (c % 64) :: b64Encode rest
  | [a, b] => [b64Char (a / 4), b64Char (a % 4 * 16 + b / 16), b64Char (b % 16 * 4), 61]
  | [a] => [b64Char (a / 4), b64Char (a % 4 * 16), 61, 61]
  | [] => []

/-- Model of `base64.decodebytes` on canonically padded input (the only
shape this repository ever feeds it, besides caller-supplied garbage which
also fails in the model). -/
def b64Decode : Bytes → Option Bytes
  | [] => some []
  | c1 :: c2 :: c3 :: c4 :: rest =>
    match b64Val c1, b64Val c2 with
    | some v1, some v2 =>
      if c3 = 61 ∧ c4 = 61 then
        if rest = [] then some [v1 * 4 + v2 / 16] else none
      else
        match b64Val c3 with
        | some v3 =>
          if c4 = 61 then
            if rest = [] then some [v1 * 4 + v2 / 16, v2 % 16 * 16 + v3 / 4] else none
          else
            match b64Val c4 with
            | some v4 =>
              (b64Decode rest).map
                (fun t => (v1 * 4 + v2 / 16) :: (v2 % 16 * 16 + v3 / 4) :: (v3 % 4 * 64 + v4) :: t)
            | none => none
        | none => none
    | _, _ => none
  | _ => none

/-- Whether a byte is a UTF-8 continuation byte. -/
def isCont (b : Nat) : Bool := decide (128 ≤ b ∧ b ≤ 191)

/-- Model of `bytes.decode('utf8')`: strict UTF-8 decoding of a byte list
into a code-point list (rejecting overlong forms, surrogates and
out-of-range values, as CPython's strict codec does). -/
def utf8Decode : Bytes → Option (List Nat)
  | [] => some []
  | b :: rest =>
    if b < 128 then (utf8Decode rest).map (fun t => b :: t)
    else if 194 ≤ b ∧ b ≤ 223 then
      match rest with
      | b2 :: rest2 =>
        if isCont b2 then
          (utf8Decode rest2).map (fun t => ((b - 192) * 64 + (b2 - 128)) :: t)
        else none
      | _ => none
    else if 224 ≤ b ∧ b ≤ 239 then
      match rest with
      | b2 :: b3 :: rest3 =>
        if decide ((if b = 224 then 160 else 128) ≤ b2 ∧
              b2 ≤ (if b = 237 then 159 else 191)) && isCont b3 then
          (utf8Decode rest3).map
            (fun t => ((b - 224) * 4096 + (b2 - 128) * 64 + (b3 - 128)) :: t)
        else none
      | _ => none
    else if 240 ≤ b ∧ b ≤ 244 then
      match rest with
      | b2 :: b3 :: b4 :: rest4 =>
        if decide ((if b = 240 then 144 else 128) ≤ b2 ∧
              b2 ≤ (if b = 244 then 143 else 191)) && isCont b3 && isCont b4 then
          (utf8Decode rest4).map
            (fun t => ((b - 240) * 262144 + (b2 - 128) * 4096 + (b3 - 128) * 64 + (b4 - 128)) :: t)
        else none
      | _ => none
    else none

/-- Model of `str.encode('utf8')` on a code-point list (`none` on lone
surrogates or out-of-range code points, where CPython raises). -/
def utf8EncodeChar (c : Nat) : Option Bytes :=
  if c < 128 then some [c]
  else if c < 2048 then some [192 + c / 64, 128 + c % 64]
  else if 55296 ≤ c ∧ c < 57344 then none
  else if c < 65536 then some [224 + c / 4096, 128 + c / 64 % 64, 128 + c % 64]
  else if c < 1114112 then
    some [240 + c / 262144, 128 + c / 4096 % 64, 128 + c / 64 % 64, 128 + c % 64]
  else none

def utf8Encode : List Nat → Option Bytes
  | [] => some []
  | c :: rest =>
    match utf8EncodeChar c, utf8Encode rest with
    | some bs, some rs => some (bs ++ rs)
    | _, _ => none

def textLit : HPath := ['t', 'e', 'x', 't']

def base64Lit : HPath := ['b', 'a', 's', 'e', '6', '4']

def checkpointIdLit : HPath := ['c', 'h', 'e', 'c', 'k', 'p', 'o', 'i', 'n', 't']

/-- Model of `_read_file`.  Text content is represented as its code-point
list; base64 text as its ASCII-code list.  Mirrors the source's control
flow: unknown/`text` format attempts UTF-8, an explicit `text` request
fails with 400/bad format on undecodable bytes, everything else falls
through to base64. -/
def read_file (fs : FS) (p : HPath) (format : Option HPath) : Except Err (List Nat × HPath) :=
  if hdfs_file_exists fs p = false then .error .notAFile
  else
    match FS.find fs p with
    | some (.file b _) =>
      if format = none ∨ format = some textLit then
        match utf8Decode b with
        | some t => .ok (t, textLit)
        | none =>
          if format = some textLit then .error .badFormat
          else .ok (b64Encode b, base64Lit)
      else .ok (b64Encode b, base64Lit)
    | _ => .error .notAFile

/-- Model of `_save_file`: validate the format, decode the payload
(UTF-8 encode for `text`; ASCII then base64 decode for `base64`), and
write through the mixin's atomic-writing wrapper. -/
def save_file (useAtomic : Bool) (fs : FS) (p : HPath) (content : List Nat)
    (format : Option HPath) : FS × Option Err :=
  if ¬ (format = some textLit ∨ format = some base64Lit) then (fs, some .badFormatArg)
  else
    match
      (if format = some textLit then utf8Encode content
       else if content.all (fun c => decide (c < 128)) then b64Decode content else none) with
    | none => (fs, some .encodingError)
    | some b => mixin_atomic_writing useAtomic fs p (.ok b)

/-- The checkpoint directory computed inside `HDFSCheckpoints.checkpoint_path`:
`os.path.join(to_os_path(parent, root), checkpoint_dir)` where `parent` is
the stripped dirname of `'/' + path.strip('/')`. -/
def cpDirOf (cpDirName root docPath : HPath) : HPath :=
  pyJoin (to_os_path root (stripSlashes (rsplitSlash1 ('/' :: stripSlashes docPath)).1)) cpDirName

/-- The checkpoint file name: `{basename}-{checkpoint_id}{ext}`. -/
def cpFilenameOf (cpId docPath : HPath) : HPath :=
  (splitext (rsplitSlash1 ('/' :: stripSlashes docPath)).2).1 ++
    '-' :: cpId ++ (splitext (rsplitSlash1 ('/' :: stripSlashes docPath)).2).2

def cpPathOf (cpDirName root cpId docPath : HPath) : HPath :=
  pyJoin (cpDirOf cpDirName root docPath) (cpFilenameOf cpId docPath)

/-- Model of `HDFSCheckpoints.checkpoint_path`: unconditionally ensures the
checkpoint directory exists (a filesystem side effect), then returns the
checkpoint file's backend path. -/
def checkpoint_path (cpDirName root : HPath) (fs : FS) (cpId docPath : HPath) :
    FS × Except Err HPath :=
  match hdfs_ensure_dir_exists fs (cpDirOf cpDirName root docPath) with
  | (fs1, some e) => (fs1, .error e)
  | (fs1, none) => (fs1, .ok (cpPathOf cpDirName root cpId docPath))

/-- Checkpoint metadata; the source also records `last_modified` read from
`hdfs.info`, elided here (timestamps are not modelled). -/
structure CheckpointModel where
  id : HPath
deriving DecidableEq, Repr

/-- Model of `checkpoint_model`: reads the entry's metadata (errors if the
path is absent, as `hdfs.info` would). -/
def checkpoint_model (fs : FS) (cpId cpPath : HPath) : Except Err CheckpointModel :=
  match FS.find fs cpPath with
  | some _ => .ok ⟨cpId⟩
  | none => .error .backendMissing

/-- Model of `HDFSCheckpoints.create_checkpoint`: copy the live document
onto its checkpoint path and return the checkpoint's metadata. -/
def create_checkpoint (cpDirName root : HPath) (fs : FS) (docPath : HPath) :
    FS × Except Err CheckpointModel :=
  match checkpoint_path cpDirName root fs checkpointIdLit docPath with
  | (fs1, .error e) => (fs1, .error e)
  | (fs1, .ok cpp) =>
    match hdfs_copy_file fs1 (to_os_path root docPath) cpp with
    | (fs2, some e) => (fs2, .error e)
    | (fs2, none) => (fs2, checkpoint_model fs2 checkpointIdLit cpp)

/-- Model of `HDFSCheckpoints.restore_checkpoint`: copy the checkpoint file
back onto the live path.  Note: the source performs no existence check of
the checkpoint and never calls `no_such_checkpoint` here. -/
def restore_checkpoint (cpDirName root : HPath) (fs : FS) (cpId docPath : HPath) :
    FS × Option Err :=
  match checkpoint_path cpDirName root fs cpId docPath with
  | (fs1, .error e) => (fs1, some e)
  | (fs1, .ok cpp) => hdfs_copy_file fs1 cpp (to_os_path root docPath)

/-- Model of `HDFSCheckpoints.rename_checkpoint`: compute both checkpoint
paths (each ensuring its directory), then move if the old one exists. -/
def rename_checkpoint (cpDirName root : HPath) (fs : FS) (cpId oldPath newPath : HPath) :
    FS × Option Err :=
  match checkpoint_path cpDirName root fs cpId oldPath with
  | (fs1, .error e) => (fs1, some e)
  | (fs1, .ok ocp) =>
    match checkpoint_path cpDirName root fs1 cpId newPath with
    | (fs2, .error e) => (fs2, some e)
    | (fs2, .ok ncp) =>
      if hdfs_file_exists fs2 ocp then hdfs_move_file fs2 ocp ncp else (fs2, none)

/-- Model of `HDFSCheckpoints.delete_checkpoint`: 404 when the checkpoint
file is absent, else `hdfs.rm` (non-recursive, on a file). -/
def delete_checkpoint (cpDirName root : HPath) (fs : FS) (cpId docPath : HPath) :
    FS × Option Err :=
  match checkpoint_path cpDirName root fs cpId (stripSlashes docPath) with
  | (fs1, .error e) => (fs1, some e)
  | (fs1, .ok cpp) =>
    if hdfs_file_exists fs1 cpp = false then (fs1, some .checkpointNotFound)
    else (FS.eraseKey fs1 cpp, none)

/-- Model of `HDFSCheckpoints.list_checkpoints`: empty list when no
checkpoint file exists, else a single-element list. -/
def list_checkpoints (cpDirName root : HPath) (fs : FS) (docPath : HPath) :
    FS × Except Err (List CheckpointModel) :=
  match checkpoint_path cpDirName root fs checkpointIdLit (stripSlashes docPath) with
  | (fs1, .error e) => (fs1, .error e)
  | (fs1, .ok cpp) =>
    if hdfs_file_exists fs1 cpp then
      match checkpoint_model fs1 checkpointIdLit cpp with
      | .error e => (fs1, .error e)
      | .ok m => (fs1, .ok [m])
    else (fs1, .ok [])

/-- Immediate children of a directory path, as full backend paths (model of
`hdfs3.ls(path, detail=False)`). -/
def isChildOf (parent p : HPath) : Bool :=
  leads (parent ++ ['/']) p
    && ! (p.drop (parent.length + 1)).isEmpty
    && (p.drop (parent.length + 1)).all (fun c => ! (c == '/'))

def fsLs (fs : FS) (p : HPath) : List HPath :=
  (fs.filter (fun ke => isChildOf p ke.1)).map (fun ke => ke.1)

/-- Model of `HDFSContentsManager.delete_file`: 404 when neither file nor
directory exists; a directory is rejected with 400 unless every listed
entry's last component is the checkpoint directory name, and is otherwise
removed recursively; a file is removed non-recursively. -/
def delete_file (cpDirName root : HPath) (fs : FS) (apiPath : HPath) : FS × Option Err :=
  let hp := to_os_path root (stripSlashes apiPath)
  let check : Option Err :=
    if hdfs_dir_exists fs hp then
      if (fsLs fs hp).all (fun long => lastComponent (stripSlashes long) == cpDirName) then none
      else some .directoryNotEmpty
    else if hdfs_file_exists fs hp = false then some .fileNotFound
    else none
  match check with
  | some e => (fs, some e)
  | none =>
    if hdfs_dir_exists fs hp then (FS.eraseTree fs hp, none)
    else (FS.eraseKey fs hp, none)

/-- Model of `HDFSContentsManager.rename_file`: no-op when the normalized
paths coincide, 409 when the destination exists, else move (unexpected
backend errors wrapped as 500). -/
def rename_file (root : HPath) (fs : FS) (oldPath newPath : HPath) : FS × Option Err :=
  if stripSlashes newPath = stripSlashes oldPath then (fs, none)
  else if (FS.find fs (to_os_path root (stripSlashes newPath))).isSome then
    (fs, some .alreadyExists)
  else
    match hdfs_move_file fs (to_os_path root (stripSlashes oldPath))
        (to_os_path root (stripSlashes newPath)) with
    | (fs1, none) => (fs1, none)
    | (fs1, some _) => (fs1, some .renameFailed)

/-- `save`'s outer exception handler: `HTTPError`s pass through, raw
backend exceptions are wrapped into a 500. -/
def saveWrap : Err → Err
  | .backendMissing => .saveFailed
  | .backendExists => .saveFailed
  | .notADirectory => .saveFailed
  | e => e

/-- Model of the notebook branch of `HDFSContentsManager.save`: persist the
serialized notebook through the atomic-writing wrapper, then create a
checkpoint if `list_checkpoints` reports none.  (The hooks, signing and the
final content-free `get` are external or read-only and are elided.) -/
def save_notebook_model (cpDirName root : HPath) (useAtomic : Bool) (fs : FS)
    (apiPath : HPath) (serialized : Bytes) : FS × Option Err :=
  match mixin_atomic_writing useAtomic fs (to_os_path root (stripSlashes apiPath)) (.ok serialized) with
  | (fs1, some e) => (fs1, some (saveWrap e))
  | (fs1, none) =>
    match list_checkpoints cpDirName root fs1 (stripSlashes apiPath) with
    | (fs2, .error e) => (fs2, some (saveWrap e))
    | (fs2, .ok l) =>
      if l.isEmpty then
        match create_checkpoint cpDirName root fs2 (stripSlashes apiPath) with
        | (fs3, .error e) => (fs3, some (saveWrap e))
        | (fs3, .ok _) => (fs3, none)
      else (fs2, none)


theorem leads_iff (a b : HPath) : leads a b = true ↔ ∃ t, b = a ++ t := by
  induction a generalizing b with
  | nil => simp [leads]
  | cons x xs ih =>
    cases b with
    | nil => simp [leads]
    | cons y ys =>
      constructor
      · intro h
        simp only [leads, Bool.and_eq_true, beq_iff_eq] at h
        obtain ⟨h1, h2⟩ := h
        obtain ⟨t, ht⟩ := (ih ys).1 h2
        exact ⟨t, by rw [h1, ht]; rfl⟩
      · rintro ⟨t, ht⟩
        obtain ⟨h1, h2⟩ := List.cons.inj ht
        simp only [leads, Bool.and_eq_true, beq_iff_eq]
        exact ⟨h1.symm, (ih ys).2 ⟨t, h2⟩⟩

theorem isDescendant_iff (root p : HPath) :
    isDescendant root p = true ↔ root = p ∨ ∃ t, p = root ++ '/' :: t := by
  simp only [isDescendant, Bool.or_eq_true, beq_iff_eq, leads_iff]
  constructor
  · rintro (h | ⟨t, h⟩)
    · exact Or.inl h
    · exact Or.inr ⟨t, by simpa [List.append_assoc] using h⟩
  · rintro (h | ⟨t, h⟩)
    · exact Or.inl h
    · exact Or.inr ⟨t, by simpa [List.append_assoc] using h⟩

theorem isDescendant_refl (p : HPath) : isDescendant p p = true := by
  simp [isDescendant_iff]

theorem isDescendant_append_drop {src q : HPath} (h : isDescendant src q = true) :
    src ++ q.drop src.length = q := by
  rcases (isDescendant_iff src q).1 h with h | ⟨t, h⟩
  · subst h; simp
  · subst h; rw [List.drop_left]

theorem isDescendant_target {src q : HPath} (h : isDescendant src q = true) (dst : HPath) :
    isDescendant dst (dst ++ q.drop src.length) = true := by
  rcases (isDescendant_iff src q).1 h with h | ⟨t, h⟩
  · subst h; simp [isDescendant_iff]
  · subst h
    rw [List.drop_left]
    exact (isDescendant_iff dst _).2 (Or.inr ⟨t, rfl⟩)

theorem eq_src_of_drop_nil {src q : HPath} (h : isDescendant src q = true)
    (hd : q.drop src.length = []) : q = src := by
  have h2 := isDescendant_append_drop h
  rw [hd] at h2
  simpa using h2.symm

theorem FS.find_eraseKey_ne (fs : FS) {p q : HPath} (h : q ≠ p) :
    FS.find (FS.eraseKey fs p) q = FS.find fs q := by
  induction fs with
  | nil => rfl
  | cons ke rest ih =>
    by_cases hk : ke.1 = p
    · have hkq : ¬ ke.1 = q := fun hq => h (hq.symm.trans hk)
      simp [FS.eraseKey, FS.find, hk, hkq, ih, Ne.symm h]
    · by_cases hq : ke.1 = q
      · simp [FS.eraseKey, FS.find, hk, hq, h]
      · simp [FS.eraseKey, FS.find, hk, hq, ih, h]

theorem FS.find_eraseKey_self (fs : FS) (p : HPath) :
    FS.find (FS.eraseKey fs p) p = none := by
  induction fs with
  | nil => rfl
  | cons ke rest ih =>
    by_cases hk : ke.1 = p
    · simp [FS.eraseKey, hk, ih]
    · simp [FS.eraseKey, FS.find, hk, ih]

theorem FS.find_set_self (fs : FS) (p : HPath) (e : Entry) :
    FS.find (FS.set fs p e) p = some e := by
  simp [FS.set, FS.find]

theorem FS.find_set_ne (fs : FS) {p q : HPath} (e : Entry) (h : q ≠ p) :
    FS.find (FS.set fs p e) q = FS.find fs q := by
  simp only [FS.set, FS.find, if_neg (Ne.symm h)]
  exact FS.find_eraseKey_ne fs h

theorem FS.find_eraseTree (fs : FS) (root q : HPath) :
    FS.find (FS.eraseTree fs root) q =
      if isDescendant root q = true then none else FS.find fs q := by
  induction fs with
  | nil => simp [FS.eraseTree, FS.find]
  | cons ke rest ih =>
    cases hd : isDescendant root ke.1 with
    | true =>
      by_cases hq : ke.1 = q
      · subst hq
        simp [FS.eraseTree, hd, ih]
      · simp [FS.eraseTree, hd, ih, FS.find, hq]
    | false =>
      by_cases hq : ke.1 = q
      · subst hq
        simp [FS.eraseTree, hd, FS.find]
      · simp [FS.eraseTree, hd, FS.find, hq, ih]

theorem find_chmodTree (fs : FS) (root q : HPath) :
    FS.find (chmodTree fs root) q =
      if isDescendant root q = true then (FS.find fs q).map (fun e => e.setPerm 0o770)
      else FS.find fs q := by
  induction fs with
  | nil => simp [chmodTree, FS.find]
  | cons ke rest ih =>
    cases hd : isDescendant root ke.1 with
    | true =>
      by_cases hq : ke.1 = q
      · subst hq
        simp [chmodTree, hd, FS.find]
      · simp [chmodTree, hd, FS.find, hq, ih]
    | false =>
      by_cases hq : ke.1 = q
      · subst hq
        simp [chmodTree, hd, FS.find]
      · simp [chmodTree, hd, FS.find, hq, ih]

theorem FS.find_moveTree_untouched (fs : FS) {src dst q : HPath}
    (h1 : isDescendant src q = false) (h2 : isDescendant dst q = false) :
    FS.find (FS.moveTree fs src dst) q = FS.find fs q := by
  induction fs with
  | nil => rfl
  | cons ke rest ih =>
    cases hd : isDescendant src ke.1 with
    | true =>
      have hmv := isDescendant_target hd dst
      have hne : ¬ (dst ++ ke.1.drop src.length) = q := by
        intro he
        rw [he, h2] at hmv
        cases hmv
      have hko : ¬ ke.1 = q := by
        intro he
        rw [he, h1] at hd
        cases hd
      simp [FS.moveTree, hd, FS.find, hne, hko, ih]
    | false =>
      by_cases hq : ke.1 = q
      · simp [FS.moveTree, hd, FS.find, hq, h1]
      · simp [FS.moveTree, hd, FS.find, hq, ih]

theorem FS.find_moveTree_gone (fs : FS) {src dst q : HPath}
    (h1 : isDescendant src q = true) (h2 : isDescendant dst q = false) :
    FS.find (FS.moveTree fs src dst) q = none := by
  induction fs with
  | nil => rfl
  | cons ke rest ih =>
    cases hd : isDescendant src ke.1 with
    | true =>
      have hmv := isDescendant_target hd dst
      have hne : ¬ (dst ++ ke.1.drop src.length) = q := by
        intro he
        rw [he, h2] at hmv
        cases hmv
      simp [FS.moveTree, hd, FS.find, hne, ih]
    | false =>
      have hko : ¬ ke.1 = q := by
        intro he
        rw [← he, hd] at h1
        cases h1
      simp [FS.moveTree, hd, FS.find, hko, ih]

theorem FS.find_moveTree_dst (fs : FS) {src dst : HPath}
    (hdst : FS.find fs dst = none) :
    FS.find (FS.moveTree fs src dst) dst = FS.find fs src := by
  induction fs with
  | nil => rfl
  | cons ke rest ih =>
    have hkd : ¬ ke.1 = dst := by
      intro he
      rw [FS.find, if_pos he] at hdst
      cases hdst
    have hrest : FS.find rest dst = none := by
      rw [FS.find, if_neg hkd] at hdst
      exact hdst
    cases hd : isDescendant src ke.1 with
    | true =>
      by_cases hk : ke.1 = src
      · have hdrop : ke.1.drop src.length = [] := by
          rw [hk]
          simp
        simp [FS.moveTree, hd, hdrop, FS.find, hk, ih hrest, isDescendant_refl]
      · have hdrop : ke.1.drop src.length ≠ [] := fun hnil => hk (eq_src_of_drop_nil hd hnil)
        have hne : ¬ (dst ++ ke.1.drop src.length) = dst := by
          intro he
          have h3 := congrArg List.length he
          simp only [List.length_append] at h3
          have hlen : (ke.1.drop src.length).length = 0 := by omega
          exact hdrop (List.eq_nil_of_length_eq_zero hlen)
        simp [FS.moveTree, hd, FS.find, hne, hk, ih hrest]
    | false =>
      have hks : ¬ ke.1 = src := by
        intro he
        rw [he, isDescendant_refl] at hd
        cases hd
      simp [FS.moveTree, hd, FS.find, hkd, hks, ih hrest]

theorem FS.eraseKey_idem (fs : FS) (p : HPath) :
    FS.eraseKey (FS.eraseKey fs p) p = FS.eraseKey fs p := by
  induction fs with
  | nil => rfl
  | cons ke rest ih =>
    by_cases hk : ke.1 = p
    · simp [FS.eraseKey, hk, ih]
    · simp [FS.eraseKey, hk, ih]

theorem FS.set_set (fs : FS) (p : HPath) (a b : Entry) :
    FS.set (FS.set fs p a) p b = FS.set fs p b := by
  simp [FS.set, FS.eraseKey, FS.eraseKey_idem]

theorem hdfs_copy_file_ok (fs : FS) {src dst : HPath} {c : Bytes} {pm : Nat}
    (hne : src ≠ dst) (hsrc : FS.find fs src = some (.file c pm))
    (hdst : ∀ pm2, FS.find fs dst ≠ some (.dir pm2)) :
    hdfs_copy_file fs src dst = (FS.set fs dst (.file c 0o770), none) := by
  have hfind1 : FS.find (FS.set fs dst (.file [] defaultNewPerm)) src = some (.file c pm) := by
    rw [FS.find_set_ne fs _ hne]
    exact hsrc
  unfold hdfs_copy_file fsCreateFile
  cases hfd : FS.find fs dst with
  | none =>
    simp [hfd, hfind1, fsChmod, FS.find_set_self, FS.set_set, Entry.setPerm]
  | some e =>
    cases e with
    | dir pm2 => exact absurd hfd (hdst pm2)
    | file c2 pm2 =>
      simp [hfd, hfind1, fsChmod, FS.find_set_self, FS.set_set, Entry.setPerm]

theorem hdfs_move_file_spec (fs : FS) {src dst : HPath} {es : Entry}
    (hsrc : FS.find fs src = some es) (hdst : FS.find fs dst = none)
    (hds : isDescendant dst src = false) :
    (hdfs_move_file fs src dst).2 = none ∧
    FS.find (hdfs_move_file fs src dst).1 dst = some (es.setPerm 0o770) ∧
    FS.find (hdfs_move_file fs src dst).1 src = none ∧
    ∀ q, isDescendant src q = false → isDescendant dst q = false →
      FS.find (hdfs_move_file fs src dst).1 q = FS.find fs q := by
  have hmv : hdfs_move_file fs src dst = (chmodTree (FS.moveTree fs src dst) dst, none) := by
    unfold hdfs_move_file fsMove
    simp [hdst, hsrc]
  rw [hmv]
  refine ⟨rfl, ?_, ?_, ?_⟩
  · rw [find_chmodTree, if_pos (isDescendant_refl dst), FS.find_moveTree_dst fs hdst, hsrc]
    rfl
  · rw [find_chmodTree, if_neg (by rw [hds]; exact fun h => nomatch h),
      FS.find_moveTree_gone fs (isDescendant_refl src) hds]
  · intro q hq1 hq2
    rw [find_chmodTree, if_neg (by rw [hq2]; exact fun h => nomatch h),
      FS.find_moveTree_untouched fs hq1 hq2]

theorem hdfs_ensure_dir_exists_absent (fs : FS) {p : HPath} (h : FS.find fs p = none) :
    hdfs_ensure_dir_exists fs p = (FS.set fs p (.dir 0o770), none) := by
  unfold hdfs_ensure_dir_exists fsMkdir
  simp [h, fsChmod, FS.find_set_self, FS.set_set, Entry.setPerm]

theorem hdfs_ensure_dir_exists_dir (fs : FS) {p : HPath} {pm : Nat}
    (h : FS.find fs p = some (.dir pm)) :
    hdfs_ensure_dir_exists fs p = (fs, none) := by
  unfold hdfs_ensure_dir_exists
  simp [h, hdfs_dir_exists]

theorem simple_writing_ok (fs : FS) {p : HPath} (data : Bytes)
    (hp : ∀ pm, FS.find fs p ≠ some (.dir pm)) :
    simple_writing fs p (.ok data) = (FS.set fs p (.file data 0o770), none) := by
  unfold simple_writing fsCreateFile
  cases hfd : FS.find fs p with
  | none =>
    simp [hfd, BodyOutcome.written, fsChmod, FS.find_set_self, FS.set_set, Entry.setPerm]
  | some e =>
    cases e with
    | dir pm2 => exact absurd hfd (hp pm2)
    | file c2 pm2 =>
      simp [hfd, BodyOutcome.written, fsChmod, FS.find_set_self, FS.set_set, Entry.setPerm]

theorem atomic_writing_ok_fresh (fs : FS) {p : HPath} (data : Bytes)
    (hp : FS.find fs p = none)
    (htmp : FS.find fs (path_to_intermediate p) = none)
    (hne : p ≠ path_to_intermediate p) :
    atomic_writing fs p (.ok data) = (FS.set fs p (.file data 0o770), none) := by
  have hex : hdfs_file_exists fs p = false := by simp [hdfs_file_exists, hp]
  have htmp3 : FS.find (FS.set fs p (.file data 0o770)) (path_to_intermediate p) = none := by
    rw [FS.find_set_ne fs _ (Ne.symm hne)]
    exact htmp
  unfold atomic_writing fsCreateFile
  simp [hex, hp, BodyOutcome.written, fsChmod, FS.find_set_self, FS.set_set, Entry.setPerm,
    hdfs_file_exists, htmp3]

theorem atomic_writing_ok_exists (fs : FS) {p : HPath} {c : Bytes} {pm : Nat} (data : Bytes)
    (hp : FS.find fs p = some (.file c pm))
    (htmp : FS.find fs (path_to_intermediate p) = none)
    (hne : p ≠ path_to_intermediate p) :
    atomic_writing fs p (.ok data) =
      (FS.eraseTree
        (FS.set (FS.set fs (path_to_intermediate p) (.file c 0o770)) p (.file data 0o770))
        (path_to_intermediate p), none) := by
  have hex : hdfs_file_exists fs p = true := by simp [hdfs_file_exists, hp]
  have hcopy := hdfs_copy_file_ok fs (Ne.symm (Ne.symm hne)) hp
    (fun pm2 h => by rw [htmp] at h; cases h)
  have hfs1p : FS.find (FS.set fs (path_to_intermediate p) (.file c 0o770)) p
      = some (.file c pm) := by
    rw [FS.find_set_ne fs _ hne]
    exact hp
  have hfs3tmp : FS.find
      (FS.set (FS.set fs (path_to_intermediate p) (.file c 0o770)) p (.file data 0o770))
      (path_to_intermediate p) = some (.file c 0o770) := by
    rw [FS.find_set_ne _ _ (Ne.symm hne)]
    exact FS.find_set_self fs _ _
  unfold atomic_writing fsCreateFile
  simp only [hex, if_true, hcopy, hfs1p, BodyOutcome.written]
  simp [fsChmod, FS.find_set_self, FS.set_set, Entry.setPerm, hdfs_file_exists, hfs3tmp, fsDelete]

theorem atomic_writing_fail (fs : FS) {p : HPath} {c : Bytes} {pm : Nat} (part : Bytes) (e : Err)
    (hp : FS.find fs p = some (.file c pm))
    (htmp : FS.find fs (path_to_intermediate p) = none)
    (hne : p ≠ path_to_intermediate p)
    (hpd : isDescendant p (path_to_intermediate p) = false) :
    atomic_writing fs p (.fail part e) =
      (FS.set
        (FS.moveTree
          (FS.eraseTree
            (FS.set (FS.set fs (path_to_intermediate p) (.file c 0o770)) p
              (.file part defaultNewPerm)) p)
          (path_to_intermediate p) p)
        p (.file c 0o770), some e) := by
  have hex : hdfs_file_exists fs p = true := by simp [hdfs_file_exists, hp]
  have hcopy := hdfs_copy_file_ok fs hne hp (fun pm2 h => by rw [htmp] at h; cases h)
  have hfs1p : FS.find (FS.set fs (path_to_intermediate p) (.file c 0o770)) p
      = some (.file c pm) := by
    rw [FS.find_set_ne fs _ hne]
    exact hp
  have hfs2p : FS.find
      (FS.set (FS.set fs (path_to_intermediate p) (.file c 0o770)) p
        (.file part defaultNewPerm)) p = some (.file part defaultNewPerm) :=
    FS.find_set_self _ _ _
  have hfs3tmp : FS.find
      (FS.eraseTree
        (FS.set (FS.set fs (path_to_intermediate p) (.file c 0o770)) p
          (.file part defaultNewPerm)) p)
      (path_to_intermediate p) = some (.file c 0o770) := by
    rw [FS.find_eraseTree, if_neg (by rw [hpd]; exact fun h => nomatch h),
      FS.find_set_ne _ _ (Ne.symm hne)]
    exact FS.find_set_self fs _ _
  have hfs3p : FS.find
      (FS.eraseTree
        (FS.set (FS.set fs (path_to_intermediate p) (.file c 0o770)) p
          (.file part defaultNewPerm)) p) p = none := by
    rw [FS.find_eraseTree, if_pos (isDescendant_refl p)]
  have hfs4p : FS.find
      (FS.moveTree
        (FS.eraseTree
          (FS.set (FS.set fs (path_to_intermediate p) (.file c 0o770)) p
            (.file part defaultNewPerm)) p)
        (path_to_intermediate p) p) p = some (.file c 0o770) := by
    rw [FS.find_moveTree_dst _ hfs3p]
    exact hfs3tmp
  unfold atomic_writing fsCreateFile
  simp only [hex, if_true, hcopy, hfs1p, BodyOutcome.written]
  unfold hdfs_replace_file fsDelete fsMove fsChmod
  simp only [hfs2p, hfs3tmp, hfs3p, hfs4p, Entry.setPerm]

theorem ne_of_isDescendant_false {a b : HPath} (h : isDescendant a b = false) : a ≠ b := by
  intro he
  rw [he, isDescendant_refl] at h
  cases h

theorem Entry.perm_setPerm (e : Entry) (b : Nat) : (e.setPerm b).perm = b := by
  cases e <;> rfl

theorem dropWhile_idem (p : Char → Bool) (l : List Char) :
    (l.dropWhile p).dropWhile p = l.dropWhile p := by
  induction l with
  | nil => rfl
  | cons a t ih =>
    cases hc : p a with
    | true => simp [List.dropWhile_cons, hc, ih]
    | false => simp [List.dropWhile_cons, hc]

theorem dropWhile_head_false (p : Char → Bool) (l : List Char) {a : Char} {t : List Char}
    (h : l.dropWhile p = a :: t) : p a = false := by
  induction l with
  | nil => simp at h
  | cons b u ih =>
    cases hc : p b with
    | true =>
      rw [List.dropWhile_cons, hc, if_pos rfl] at h
      exact ih h
    | false =>
      rw [List.dropWhile_cons, hc] at h
      simp at h
      rw [← h.1]
      exact hc

theorem dropWhile_getLast? (p : Char → Bool) (l : List Char)
    (h : l.dropWhile p ≠ []) : (l.dropWhile p).getLast? = l.getLast? := by
  induction l with
  | nil => simp at h
  | cons a t ih =>
    cases hc : p a with
    | false => rw [List.dropWhile_cons, hc]; simp
    | true =>
      rw [List.dropWhile_cons, hc, if_pos rfl] at h ⊢
      have ht : t ≠ [] := by
        intro hnil
        rw [hnil] at h
        exact h rfl
      rw [ih h]
      cases t with
      | nil => exact absurd rfl ht
      | cons b w => rw [List.getLast?_cons_cons]

theorem stripSlashes_idem (s : HPath) : stripSlashes (stripSlashes s) = stripSlashes s := by
  unfold stripSlashes
  set p : Char → Bool := fun c => c == '/' with hpdef
  set u := s.dropWhile p with hu
  set v := (u.reverse).dropWhile p with hv
  have hA : v.reverse.dropWhile p = v.reverse := by
    cases hrv : v.reverse with
    | nil => rfl
    | cons a t =>
      have hvne : v ≠ [] := by
        intro hnil
        rw [hnil] at hrv
        simp at hrv
      have hune : u.reverse ≠ [] := by
        intro hnil
        rw [hv, hnil] at hvne
        exact hvne rfl
      have hu2 : u ≠ [] := by
        intro hnil
        rw [hnil] at hune
        simp at hune
      obtain ⟨b, w, hbw⟩ := List.exists_cons_of_ne_nil hu2
      have hb : p b = false := dropWhile_head_false p s (hu ▸ hbw)
      have hlast : v.getLast? = some b := by
        rw [hv, dropWhile_getLast? p u.reverse (by rw [← hv]; exact hvne)]
        rw [List.getLast?_reverse, hbw]
        rfl
      have hhead : v.reverse.head? = some b := by
        rw [List.head?_reverse]
        exact hlast
      rw [hrv] at hhead
      simp at hhead
      rw [List.dropWhile_cons, hhead, hb]
      simp
  have hB : v.dropWhile p = v := by
    rw [hv]
    exact dropWhile_idem p u.reverse
  rw [hA, List.reverse_reverse, hB]

/-- Claim C6: `rename_file(a, b)` with `a` and `b` equal after normalization
(stripping leading/trailing slashes) returns without performing any
filesystem operation; and when an entry already exists at `b`'s backend
path (the paths being distinct after normalization, so that the no-op
branch is not taken), `rename_file(a, b)` fails with AlreadyExists
(HTTP 409) and performs no filesystem mutation. -/
theorem C6_rename_file (root : HPath) (fs : FS) (a b : HPath) :
    (stripSlashes b = stripSlashes a → rename_file root fs a b = (fs, none)) ∧
    (stripSlashes b ≠ stripSlashes a →
      (FS.find fs (to_os_path root (stripSlashes b))).isSome = true →
      rename_file root fs a b = (fs, some Err.alreadyExists)) := by
  constructor
  · intro h
    unfold rename_file
    simp [h]
  · intro h hex
    unfold rename_file
    simp [h, hex]

theorem C6_rename_file_witness :
    rename_file (( "/" ).data) [] (( "a/b" ).data) (( "/a/b/" ).data) = ([], none) ∧
    rename_file (( "/" ).data) [((( "/c" ).data), Entry.file [1] 0o770)]
        (( "a" ).data) (( "c" ).data)
      = ([((( "/c" ).data), Entry.file [1] 0o770)], some Err.alreadyExists) := by
  constructor
  · exact (C6_rename_file (( "/" ).data) [] (( "a/b" ).data) (( "/a/b/" ).data)).1 (by decide)
  · exact (C6_rename_file (( "/" ).data) [((( "/c" ).data), Entry.file [1] 0o770)]
      (( "a" ).data) (( "c" ).data)).2 (by decide) (by decide)

/-- Claim C7: `delete_file(p)` fails with NotFound (404) when neither a
file nor a directory exists at `p`'s backend path; for a directory it
fails with DirectoryNotEmpty (400) unless every listed entry's last
component is exactly the checkpoint subdirectory name, a directory passing
that test being removed recursively (checkpoints included); a file is
removed non-recursively (all other entries untouched). -/
theorem C7_delete_file (cpDirName root : HPath) (fs : FS) (a : HPath) :
    (FS.find fs (to_os_path root (stripSlashes a)) = none →
      delete_file cpDirName root fs a = (fs, some Err.fileNotFound)) ∧
    (∀ pm, FS.find fs (to_os_path root (stripSlashes a)) = some (.dir pm) →
      ((fsLs fs (to_os_path root (stripSlashes a))).all
          (fun long => lastComponent (stripSlashes long) == cpDirName) = false →
        delete_file cpDirName root fs a = (fs, some Err.directoryNotEmpty)) ∧
      ((fsLs fs (to_os_path root (stripSlashes a))).all
          (fun long => lastComponent (stripSlashes long) == cpDirName) = true →
        delete_file cpDirName root fs a =
          (FS.eraseTree fs (to_os_path root (stripSlashes a)), none) ∧
        ∀ q, isDescendant (to_os_path root (stripSlashes a)) q = true →
          FS.find (delete_file cpDirName root fs a).1 q = none)) ∧
    (∀ c pm, FS.find fs (to_os_path root (stripSlashes a)) = some (.file c pm) →
      delete_file cpDirName root fs a =
        (FS.eraseKey fs (to_os_path root (stripSlashes a)), none) ∧
      FS.find (delete_file cpDirName root fs a).1 (to_os_path root (stripSlashes a)) = none ∧
      ∀ q, q ≠ to_os_path root (stripSlashes a) →
        FS.find (delete_file cpDirName root fs a).1 q = FS.find fs q) := by
  refine ⟨?_, ?_, ?_⟩
  · intro h
    unfold delete_file
    simp [hdfs_dir_exists, hdfs_file_exists, h]
  · intro pm hdir
    constructor
    · intro hall
      unfold delete_file
      simp [hdfs_dir_exists, hdir, hall]
    · intro hall
      have hres : delete_file cpDirName root fs a =
          (FS.eraseTree fs (to_os_path root (stripSlashes a)), none) := by
        unfold delete_file
        simp [hdfs_dir_exists, hdir, hall]
      refine ⟨hres, ?_⟩
      intro q hq
      rw [hres, FS.find_eraseTree, if_pos hq]
  · intro c pm hfile
    have hres : delete_file cpDirName root fs a =
        (FS.eraseKey fs (to_os_path root (stripSlashes a)), none) := by
      unfold delete_file
      simp [hdfs_dir_exists, hdfs_file_exists, hfile]
    refine ⟨hres, ?_, ?_⟩
    · rw [hres]
      exact FS.find_eraseKey_self fs _
    · intro q hq
      rw [hres]
      exact FS.find_eraseKey_ne fs hq

/-- Claim C9: every checkpoint-store operation mutates the filesystem when
the per-directory checkpoint subdirectory is absent, because
`checkpoint_path` unconditionally ensures (and so creates) that
subdirectory before returning the checkpoint's backend path.  Shown for
`checkpoint_path` itself, for the read-only `list_checkpoints`, for the
no-op branch of `rename_checkpoint`, and for the failure branch of
`delete_checkpoint`. -/
theorem C9_checkpoint_dir_side_effect (cpDirName root : HPath) (fs : FS)
    (cpId p oldPath newPath : HPath) :
    (FS.find fs (cpDirOf cpDirName root p) = none →
      checkpoint_path cpDirName root fs cpId p =
        (FS.set fs (cpDirOf cpDirName root p) (.dir 0o770),
          .ok (cpPathOf cpDirName root cpId p))) ∧
    (FS.find fs (cpDirOf cpDirName root (stripSlashes p)) = none →
      FS.find (list_checkpoints cpDirName root fs p).1
          (cpDirOf cpDirName root (stripSlashes p)) = some (.dir 0o770)) ∧
    (FS.find fs (cpDirOf cpDirName root oldPath) = none →
      cpDirOf cpDirName root newPath = cpDirOf cpDirName root oldPath →
      FS.find fs (cpPathOf cpDirName root cpId oldPath) = none →
      cpPathOf cpDirName root cpId oldPath ≠ cpDirOf cpDirName root oldPath →
      rename_checkpoint cpDirName root fs cpId oldPath newPath =
        (FS.set fs (cpDirOf cpDirName root oldPath) (.dir 0o770), none)) ∧
    (FS.find fs (cpDirOf cpDirName root (stripSlashes p)) = none →
      FS.find fs (cpPathOf cpDirName root cpId (stripSlashes p)) = none →
      cpPathOf cpDirName root cpId (stripSlashes p) ≠ cpDirOf cpDirName root (stripSlashes p) →
      delete_checkpoint cpDirName root fs cpId p =
        (FS.set fs (cpDirOf cpDirName root (stripSlashes p)) (.dir 0o770),
          some Err.checkpointNotFound)) := by
  refine ⟨?_, ?_, ?_, ?_⟩
  · intro h
    unfold checkpoint_path
    rw [hdfs_ensure_dir_exists_absent fs h]
  · intro h
    have hcp : checkpoint_path cpDirName root fs checkpointIdLit (stripSlashes p) =
        (FS.set fs (cpDirOf cpDirName root (stripSlashes p)) (.dir 0o770),
          .ok (cpPathOf cpDirName root checkpointIdLit (stripSlashes p))) := by
      unfold checkpoint_path
      rw [hdfs_ensure_dir_exists_absent fs h]
    unfold list_checkpoints
    rw [hcp]
    cases hfe : hdfs_file_exists
        (FS.set fs (cpDirOf cpDirName root (stripSlashes p)) (.dir 0o770))
        (cpPathOf cpDirName root checkpointIdLit (stripSlashes p)) with
    | true =>
      cases hcm : checkpoint_model
          (FS.set fs (cpDirOf cpDirName root (stripSlashes p)) (.dir 0o770))
          checkpointIdLit (cpPathOf cpDirName root checkpointIdLit (stripSlashes p)) with
      | error e => simp [hfe, hcm, FS.find_set_self]
      | ok m => simp [hfe, hcm, FS.find_set_self]
    | false => simp [hfe, FS.find_set_self]
  · intro h1 heq h2 hne
    have hcp1 : checkpoint_path cpDirName root fs cpId oldPath =
        (FS.set fs (cpDirOf cpDirName root oldPath) (.dir 0o770),
          .ok (cpPathOf cpDirName root cpId oldPath)) := by
      unfold checkpoint_path
      rw [hdfs_ensure_dir_exists_absent fs h1]
    have hcp2 : checkpoint_path cpDirName root
        (FS.set fs (cpDirOf cpDirName root oldPath) (.dir 0o770)) cpId newPath =
        (FS.set fs (cpDirOf cpDirName root oldPath) (.dir 0o770),
          .ok (cpPathOf cpDirName root cpId newPath)) := by
      unfold checkpoint_path
      rw [heq, hdfs_ensure_dir_exists_dir _ (FS.find_set_self fs _ _)]
    have hocp : FS.find (FS.set fs (cpDirOf cpDirName root oldPath) (.dir 0o770))
        (cpPathOf cpDirName root cpId oldPath) = none := by
      rw [FS.find_set_ne fs _ hne]
      exact h2
    unfold rename_checkpoint
    rw [hcp1]
    simp [hcp2, hdfs_file_exists, hocp]
  · intro h1 h2 hne
    have hcp : checkpoint_path cpDirName root fs cpId (stripSlashes p) =
        (FS.set fs (cpDirOf cpDirName root (stripSlashes p)) (.dir 0o770),
          .ok (cpPathOf cpDirName root cpId (stripSlashes p))) := by
      unfold checkpoint_path
      rw [hdfs_ensure_dir_exists_absent fs h1]
    have hocp : FS.find (FS.set fs (cpDirOf cpDirName root (stripSlashes p)) (.dir 0o770))
        (cpPathOf cpDirName root cpId (stripSlashes p)) = none := by
      rw [FS.find_set_ne fs _ hne]
      exact h2
    unfold delete_checkpoint
    rw [hcp]
    simp [hdfs_file_exists, hocp]

theorem C9_checkpoint_dir_side_effect_witness :
    checkpoint_path (( ".ipynb_checkpoints" ).data) (( "/" ).data) [] (( "checkpoint" ).data)
        (( "a/b.ipynb" ).data) =
      (FS.set [] (( "/a/.ipynb_checkpoints" ).data) (.dir 0o770),
        .ok (( "/a/.ipynb_checkpoints/b-checkpoint.ipynb" ).data)) ∧
    FS.find (list_checkpoints (( ".ipynb_checkpoints" ).data) (( "/" ).data) []
        (( "a/b.ipynb" ).data)).1 (( "/a/.ipynb_checkpoints" ).data) = some (.dir 0o770) ∧
    rename_checkpoint (( ".ipynb_checkpoints" ).data) (( "/" ).data) [] (( "checkpoint" ).data)
        (( "a/b.ipynb" ).data) (( "a/c.ipynb" ).data) =
      (FS.set [] (( "/a/.ipynb_checkpoints" ).data) (.dir 0o770), none) ∧
    delete_checkpoint (( ".ipynb_checkpoints" ).data) (( "/" ).data) [] (( "checkpoint" ).data)
        (( "a/b.ipynb" ).data) =
      (FS.set [] (( "/a/.ipynb_checkpoints" ).data) (.dir 0o770), some Err.checkpointNotFound) := by
  have h := C9_checkpoint_dir_side_effect (( ".ipynb_checkpoints" ).data) (( "/" ).data) []
    (( "checkpoint" ).data) (( "a/b.ipynb" ).data) (( "a/b.ipynb" ).data) (( "a/c.ipynb" ).data)
  exact ⟨h.1 (by decide), h.2.1 (by decide),
    h.2.2.1 (by decide) (by decide) (by decide) (by decide),
    h.2.2.2 (by decide) (by decide) (by decide)⟩

/-- Claim C4 counterexample: restoring with the unsupported checkpoint id
`"foo"` does not fail with CheckpointNotFound (HTTP 404); it fails with the
backend's missing-file error (and, incidentally, truncates the live
document first). -/
theorem C4_counterexample :
    (( "foo" ).data ≠ checkpointIdLit) ∧
    (restore_checkpoint (( ".ipynb_checkpoints" ).data) (( "/" ).data)
        [((( "/n.ipynb" ).data), Entry.file [1, 2] 0o770)]
        (( "foo" ).data) (( "n.ipynb" ).data)).2 ≠ some Err.checkpointNotFound ∧
    (restore_checkpoint (( ".ipynb_checkpoints" ).data) (( "/" ).data)
        [((( "/n.ipynb" ).data), Entry.file [1, 2] 0o770)]
        (( "foo" ).data) (( "n.ipynb" ).data)).2 = some Err.backendMissing := by
  decide

/-- Claim C4 (amended): for a checkpoint id under which no checkpoint file
exists (in particular any id other than the single id `"checkpoint"` the
store ever writes), `restore_checkpoint` does not raise CheckpointNotFound:
it performs no existence check, opens the live document for write
(truncating it to empty), then fails with the backend's missing-file error
when opening the absent checkpoint file for read. -/
theorem C4_restore_checkpoint_no_check (cpDirName root : HPath) (fs : FS) (cpId docPath : HPath)
    (hcpd : FS.find fs (cpDirOf cpDirName root docPath) = none)
    (hcpp : FS.find fs (cpPathOf cpDirName root cpId docPath) = none)
    (hne1 : cpPathOf cpDirName root cpId docPath ≠ cpDirOf cpDirName root docPath)
    (hne2 : cpPathOf cpDirName root cpId docPath ≠ to_os_path root docPath)
    (hne3 : to_os_path root docPath ≠ cpDirOf cpDirName root docPath)
    (hlive : ∀ pm, FS.find fs (to_os_path root docPath) ≠ some (.dir pm)) :
    (restore_checkpoint cpDirName root fs cpId docPath).2 = some Err.backendMissing ∧
    (restore_checkpoint cpDirName root fs cpId docPath).2 ≠ some Err.checkpointNotFound ∧
    FS.find (restore_checkpoint cpDirName root fs cpId docPath).1 (to_os_path root docPath)
      = some (.file [] defaultNewPerm) := by
  have hcp : checkpoint_path cpDirName root fs cpId docPath =
      (FS.set fs (cpDirOf cpDirName root docPath) (.dir 0o770),
        .ok (cpPathOf cpDirName root cpId docPath)) := by
    unfold checkpoint_path
    rw [hdfs_ensure_dir_exists_absent fs hcpd]
  have hcpp2 : FS.find
      (FS.set (FS.set fs (cpDirOf cpDirName root docPath) (.dir 0o770))
        (to_os_path root docPath) (.file [] defaultNewPerm))
      (cpPathOf cpDirName root cpId docPath) = none := by
    rw [FS.find_set_ne _ _ hne2, FS.find_set_ne _ _ hne1]
    exact hcpp
  have hres : restore_checkpoint cpDirName root fs cpId docPath =
      (FS.set (FS.set fs (cpDirOf cpDirName root docPath) (.dir 0o770))
        (to_os_path root docPath) (.file [] defaultNewPerm), some Err.backendMissing) := by
    unfold restore_checkpoint
    rw [hcp]
    unfold hdfs_copy_file fsCreateFile
    cases hfl : FS.find fs (to_os_path root docPath) with
    | none =>
      simp [FS.find_set_ne _ _ hne3, hfl, hcpp2]
    | some e =>
      cases e with
      | dir pm => exact absurd hfl (hlive pm)
      | file c2 pm2 =>
        simp [FS.find_set_ne _ _ hne3, hfl, hcpp2]
  rw [hres]
  refine ⟨rfl, by simp, ?_⟩
  exact FS.find_set_self _ _ _

theorem C4_restore_checkpoint_no_check_witness :
    (restore_checkpoint (( ".ipynb_checkpoints" ).data) (( "/" ).data)
        [((( "/n.ipynb" ).data), Entry.file [1, 2] 0o770)]
        (( "foo" ).data) (( "n.ipynb" ).data)).2 = some Err.backendMissing ∧
    FS.find (restore_checkpoint (( ".ipynb_checkpoints" ).data) (( "/" ).data)
        [((( "/n.ipynb" ).data), Entry.file [1, 2] 0o770)]
        (( "foo" ).data) (( "n.ipynb" ).data)).1 (( "/n.ipynb" ).data)
      = some (Entry.file [] defaultNewPerm) := by
  have h := C4_restore_checkpoint_no_check (( ".ipynb_checkpoints" ).data) (( "/" ).data)
    [((( "/n.ipynb" ).data), Entry.file [1, 2] 0o770)] (( "foo" ).data) (( "n.ipynb" ).data)
    (by decide) (by decide) (by decide) (by decide) (by decide)
    (by intro pm h; cases h)
  exact ⟨h.1, h.2.2⟩

theorem C7_delete_file_witness :
    delete_file (( ".ipynb_checkpoints" ).data) (( "/" ).data) [] (( "x" ).data)
      = ([], some Err.fileNotFound) ∧
    delete_file (( ".ipynb_checkpoints" ).data) (( "/" ).data)
        [((( "/d" ).data), Entry.dir 0o770), ((( "/d/f" ).data), Entry.file [1] 0o770)]
        (( "d" ).data)
      = ([((( "/d" ).data), Entry.dir 0o770), ((( "/d/f" ).data), Entry.file [1] 0o770)],
          some Err.directoryNotEmpty) ∧
    delete_file (( ".ipynb_checkpoints" ).data) (( "/" ).data)
        [((( "/d" ).data), Entry.dir 0o770),
         ((( "/d/.ipynb_checkpoints" ).data), Entry.dir 0o770),
         ((( "/d/.ipynb_checkpoints/f-checkpoint.ipynb" ).data), Entry.file [1] 0o770)]
        (( "d" ).data)
      = ([], none) ∧
    delete_file (( ".ipynb_checkpoints" ).data) (( "/" ).data)
        [((( "/f" ).data), Entry.file [1] 0o770), ((( "/g" ).data), Entry.file [2] 0o770)]
        (( "f" ).data)
      = ([((( "/g" ).data), Entry.file [2] 0o770)], none) := by
  refine ⟨?_, ?_, ?_, ?_⟩
  · exact (C7_delete_file (( ".ipynb_checkpoints" ).data) (( "/" ).data) [] (( "x" ).data)).1
      (by decide)
  · exact ((C7_delete_file (( ".ipynb_checkpoints" ).data) (( "/" ).data)
      [((( "/d" ).data), Entry.dir 0o770), ((( "/d/f" ).data), Entry.file [1] 0o770)]
      (( "d" ).data)).2.1 0o770 (by decide)).1 (by decide)
  · exact (((C7_delete_file (( ".ipynb_checkpoints" ).data) (( "/" ).data)
      [((( "/d" ).data), Entry.dir 0o770),
       ((( "/d/.ipynb_checkpoints" ).data), Entry.dir 0o770),
       ((( "/d/.ipynb_checkpoints/f-checkpoint.ipynb" ).data), Entry.file [1] 0o770)]
      (( "d" ).data)).2.1 0o770 (by decide)).2 (by decide)).1
  · exact ((C7_delete_file (( ".ipynb_checkpoints" ).data) (( "/" ).data)
      [((( "/f" ).data), Entry.file [1] 0o770), ((( "/g" ).data), Entry.file [2] 0o770)]
      (( "f" ).data)).2.2 [1] 0o770 (by decide)).1

/-- Claim C10: after each successful mutating operation — an atomic write
(over a file with arbitrary previous permission bits), a simple write, a
file copy, a file/directory move, and checkpoint-directory creation — the
affected backend entry's permission bits are exactly 0o770. -/
theorem C10_perm_bits (fs : FS) (p src dst : HPath) (data c : Bytes) (pm : Nat) :
    (FS.find fs p = some (.file c pm) →
      FS.find fs (path_to_intermediate p) = none →
      p ≠ path_to_intermediate p →
      isDescendant (path_to_intermediate p) p = false →
      ∃ e, FS.find (atomic_writing fs p (.ok data)).1 p = some e ∧ e.perm = 0o770) ∧
    ((∀ pm2, FS.find fs p ≠ some (.dir pm2)) →
      ∃ e, FS.find (simple_writing fs p (.ok data)).1 p = some e ∧ e.perm = 0o770) ∧
    (src ≠ dst → FS.find fs src = some (.file c pm) →
      (∀ pm2, FS.find fs dst ≠ some (.dir pm2)) →
      ∃ e, FS.find (hdfs_copy_file fs src dst).1 dst = some e ∧ e.perm = 0o770) ∧
    (∀ es : Entry, FS.find fs src = some es → FS.find fs dst = none →
      isDescendant dst src = false →
      ∃ e, FS.find (hdfs_move_file fs src dst).1 dst = some e ∧ e.perm = 0o770) ∧
    (FS.find fs p = none →
      ∃ e, FS.find (hdfs_ensure_dir_exists fs p).1 p = some e ∧ e.perm = 0o770) := by
  refine ⟨?_, ?_, ?_, ?_, ?_⟩
  · intro hp htmp hne hdp
    rw [atomic_writing_ok_exists fs data hp htmp hne]
    refine ⟨.file data 0o770, ?_, rfl⟩
    rw [FS.find_eraseTree, if_neg (by rw [hdp]; exact fun h => nomatch h)]
    exact FS.find_set_self _ _ _
  · intro hp
    rw [simple_writing_ok fs data hp]
    exact ⟨.file data 0o770, FS.find_set_self _ _ _, rfl⟩
  · intro hne hsrc hdst
    rw [hdfs_copy_file_ok fs hne hsrc hdst]
    exact ⟨.file c 0o770, FS.find_set_self _ _ _, rfl⟩
  · intro es hsrc hdst hds
    exact ⟨es.setPerm 0o770, (hdfs_move_file_spec fs hsrc hdst hds).2.1,
      Entry.perm_setPerm es 0o770⟩
  · intro hp
    rw [hdfs_ensure_dir_exists_absent fs hp]
    exact ⟨.dir 0o770, FS.find_set_self _ _ _, rfl⟩

theorem C10_perm_bits_witness :
    (∃ e, FS.find (atomic_writing [((( "/a/b" ).data), Entry.file [1] 0o600)]
        (( "/a/b" ).data) (.ok [2])).1 (( "/a/b" ).data) = some e ∧ e.perm = 0o770) ∧
    (∃ e, FS.find (simple_writing [((( "/a/b" ).data), Entry.file [1] 0o600)]
        (( "/a/b" ).data) (.ok [2])).1 (( "/a/b" ).data) = some e ∧ e.perm = 0o770) ∧
    (∃ e, FS.find (hdfs_copy_file [((( "/a/b" ).data), Entry.file [1] 0o600)]
        (( "/a/b" ).data) (( "/a/c" ).data)).1 (( "/a/c" ).data) = some e ∧ e.perm = 0o770) ∧
    (∃ e, FS.find (hdfs_move_file [((( "/a/b" ).data), Entry.file [1] 0o600)]
        (( "/a/b" ).data) (( "/a/c" ).data)).1 (( "/a/c" ).data) = some e ∧ e.perm = 0o770) ∧
    (∃ e, FS.find (hdfs_ensure_dir_exists [((( "/a/b" ).data), Entry.file [1] 0o600)]
        (( "/a/d" ).data)).1 (( "/a/d" ).data) = some e ∧ e.perm = 0o770) := by
  have h := C10_perm_bits [((( "/a/b" ).data), Entry.file [1] 0o600)]
    (( "/a/b" ).data) (( "/a/b" ).data) (( "/a/c" ).data) [2] [1] 0o600
  have h5 := C10_perm_bits [((( "/a/b" ).data), Entry.file [1] 0o600)]
    (( "/a/d" ).data) (( "/a/b" ).data) (( "/a/c" ).data) [2] [1] 0o600
  refine ⟨?_, ?_, ?_, ?_, ?_⟩
  · exact h.1 (by decide) (by decide) (by decide) (by decide)
  · exact h.2.1 (by intro pm2 hx; cases hx)
  · exact h.2.2.1 (by decide) (by decide) (by intro pm2 hx; cases hx)
  · exact h.2.2.2.1 (Entry.file [1] 0o600) (by decide) (by decide) (by decide)
  · exact h5.2.2.2.2 (by decide)

/-- Claim C1: for an atomic write transaction (`atomic_writing` with
`use_atomic_writing` enabled) over a pre-existing file (so an intermediate
backup exists): if an error escapes the write scope, the backup is moved
back onto the path with replace semantics — the path again holds the exact
pre-write content — no intermediate remains, and the original error is
re-signalled to the caller; if the scope completes without error, the new
data is persisted and no intermediate backup file remains at the
intermediate path (the success part also covers a previously absent
target). -/
theorem C1_atomic_writing (fs : FS) (p : HPath) (data part c : Bytes) (e : Err) (pm : Nat)
    (hne : p ≠ path_to_intermediate p)
    (hdp : isDescendant (path_to_intermediate p) p = false)
    (hpd : isDescendant p (path_to_intermediate p) = false)
    (htmp : FS.find fs (path_to_intermediate p) = none) :
    (FS.find fs p = some (.file c pm) →
      (atomic_writing fs p (.fail part e)).2 = some e ∧
      FS.find (atomic_writing fs p (.fail part e)).1 p = some (.file c 0o770) ∧
      FS.find (atomic_writing fs p (.fail part e)).1 (path_to_intermediate p) = none) ∧
    ((FS.find fs p = some (.file c pm) ∨ FS.find fs p = none) →
      (atomic_writing fs p (.ok data)).2 = none ∧
      FS.find (atomic_writing fs p (.ok data)).1 p = some (.file data 0o770) ∧
      FS.find (atomic_writing fs p (.ok data)).1 (path_to_intermediate p) = none) := by
  constructor
  · intro hp
    rw [atomic_writing_fail fs part e hp htmp hne hpd]
    refine ⟨rfl, FS.find_set_self _ _ _, ?_⟩
    rw [FS.find_set_ne _ _ (Ne.symm hne)]
    exact FS.find_moveTree_gone _ (isDescendant_refl _) hpd
  · rintro (hp | hp)
    · rw [atomic_writing_ok_exists fs data hp htmp hne]
      refine ⟨rfl, ?_, ?_⟩
      · rw [FS.find_eraseTree, if_neg (by rw [hdp]; exact fun h => nomatch h)]
        exact FS.find_set_self _ _ _
      · rw [FS.find_eraseTree, if_pos (isDescendant_refl _)]
    · rw [atomic_writing_ok_fresh fs data hp htmp hne]
      refine ⟨rfl, FS.find_set_self _ _ _, ?_⟩
      rw [FS.find_set_ne _ _ (Ne.symm hne)]
      exact htmp

theorem C1_atomic_writing_witness :
    ((atomic_writing [((( "/a/b" ).data), Entry.file [1] 0o600)] (( "/a/b" ).data)
        (.fail [9] (Err.userError 5))).2 = some (Err.userError 5) ∧
      FS.find (atomic_writing [((( "/a/b" ).data), Entry.file [1] 0o600)] (( "/a/b" ).data)
        (.fail [9] (Err.userError 5))).1 (( "/a/b" ).data) = some (Entry.file [1] 0o770) ∧
      FS.find (atomic_writing [((( "/a/b" ).data), Entry.file [1] 0o600)] (( "/a/b" ).data)
        (.fail [9] (Err.userError 5))).1 (( "/a/.~b" ).data) = none) ∧
    ((atomic_writing [((( "/a/b" ).data), Entry.file [1] 0o600)] (( "/a/b" ).data)
        (.ok [2, 3])).2 = none ∧
      FS.find (atomic_writing [((( "/a/b" ).data), Entry.file [1] 0o600)] (( "/a/b" ).data)
        (.ok [2, 3])).1 (( "/a/b" ).data) = some (Entry.file [2, 3] 0o770) ∧
      FS.find (atomic_writing [((( "/a/b" ).data), Entry.file [1] 0o600)] (( "/a/b" ).data)
        (.ok [2, 3])).1 (( "/a/.~b" ).data) = none) := by
  have h := C1_atomic_writing [((( "/a/b" ).data), Entry.file [1] 0o600)] (( "/a/b" ).data)
    [2, 3] [9] [1] (Err.userError 5) 0o600 (by decide) (by decide) (by decide) (by decide)
  exact ⟨h.1 (by decide), h.2 (Or.inl (by decide))⟩

/-- Claim C2: on a notebook parse failure, when atomic-write mode is
disabled or no intermediate exists at the path's intermediate location the
read fails with UnreadableDocument (HTTP 400); when atomic-write mode is
enabled and an intermediate file exists, the corrupt file is moved aside
to the invalid-marker path, the intermediate is moved onto the original
path, and the read is retried exactly once — succeeding if the promoted
content parses, and propagating a parse failure as the 400 error (the
result is independent of any remaining fuel, i.e. no further retry
happens, because recovery consumed the intermediate). -/
theorem C2_read_notebook (parse : Bytes → Option Nat) (fs : FS) (p : HPath)
    (c ct : Bytes) (pmc pmt : Nat) (fuel : Nat)
    (hp : FS.find fs p = some (.file c pmc))
    (hparse : parse c = none) :
    (∀ useAtomic : Bool, (useAtomic = false ∨ FS.find fs (path_to_intermediate p) = none) →
      read_notebook parse useAtomic (fuel + 1) fs p = (fs, .error .unreadableNotebook)) ∧
    (FS.find fs (path_to_intermediate p) = some (.file ct pmt) →
      FS.find fs (path_to_invalid p) = none →
      isDescendant (path_to_invalid p) p = false →
      isDescendant p (path_to_intermediate p) = false →
      isDescendant (path_to_invalid p) (path_to_intermediate p) = false →
      isDescendant (path_to_intermediate p) (path_to_invalid p) = false →
      isDescendant p (path_to_invalid p) = false →
      ((read_notebook parse true (fuel + 1 + 1) fs p).2 =
        match parse ct with
        | some nb => .ok nb
        | none => .error .unreadableNotebook) ∧
      FS.find (read_notebook parse true (fuel + 1 + 1) fs p).1 p = some (.file ct 0o770) ∧
      FS.find (read_notebook parse true (fuel + 1 + 1) fs p).1 (path_to_invalid p)
        = some (.file c 0o770) ∧
      FS.find (read_notebook parse true (fuel + 1 + 1) fs p).1 (path_to_intermediate p)
        = none) := by
  constructor
  · intro ua h
    simp only [read_notebook, hp, hparse, if_pos h]
  · intro htmpf hinv d1 d2 d3 d4 d5
    obtain ⟨hm1e, hm1dst, hm1src, hm1frame⟩ := hdfs_move_file_spec fs hp hinv d1
    obtain ⟨F1, hF1⟩ : ∃ F1, hdfs_move_file fs p (path_to_invalid p) = (F1, none) :=
      ⟨(hdfs_move_file fs p (path_to_invalid p)).1, by rw [← hm1e]⟩
    simp only [hF1] at hm1dst hm1src hm1frame
    have hF1tmp : FS.find F1 (path_to_intermediate p) = some (.file ct pmt) := by
      rw [hm1frame _ d2 d3]
      exact htmpf
    obtain ⟨hm2e, hm2dst, hm2src, hm2frame⟩ := hdfs_move_file_spec F1 hF1tmp hm1src d2
    obtain ⟨F2, hF2⟩ : ∃ F2, hdfs_move_file F1 (path_to_intermediate p) p = (F2, none) :=
      ⟨(hdfs_move_file F1 (path_to_intermediate p) p).1, by rw [← hm2e]⟩
    simp only [hF2] at hm2dst hm2src hm2frame
    have hF2p : FS.find F2 p = some (.file ct 0o770) := by
      simpa [Entry.setPerm] using hm2dst
    have hF2inv : FS.find F2 (path_to_invalid p) = some (.file c 0o770) := by
      rw [hm2frame _ d4 d5]
      simpa [Entry.setPerm] using hm1dst
    have hcond : ¬ (true = false ∨ FS.find fs (path_to_intermediate p) = none) := by
      rintro (h | h)
      · cases h
      · rw [htmpf] at h
        cases h
    have hstep : read_notebook parse true (fuel + 1 + 1) fs p
        = read_notebook parse true (fuel + 1) F2 p := by
      conv_lhs => rw [read_notebook]
      simp only [hp, hparse, if_neg hcond, hF1, hF2]
    have hstep2 : read_notebook parse true (fuel + 1) F2 p
        = (F2, match parse ct with
               | some nb => .ok nb
               | none => .error .unreadableNotebook) := by
      cases hpt : parse ct with
      | some nb => simp only [read_notebook, hF2p, hpt]
      | none =>
        have hcond2 : (true = false ∨ FS.find F2 (path_to_intermediate p) = none) :=
          Or.inr hm2src
        simp only [read_notebook, hF2p, hpt, if_pos hcond2]
    rw [hstep, hstep2]
    exact ⟨rfl, hF2p, hF2inv, hm2src⟩

theorem C2_read_notebook_witness :
    read_notebook (fun b => if b = [1] then some 7 else none) false 1
        [((( "/a/b.ipynb" ).data), Entry.file [0] 0o770)] (( "/a/b.ipynb" ).data)
      = ([((( "/a/b.ipynb" ).data), Entry.file [0] 0o770)], .error .unreadableNotebook) ∧
    ((read_notebook (fun b => if b = [1] then some 7 else none) true 2
        [((( "/a/b.ipynb" ).data), Entry.file [0] 0o770),
         ((( "/a/.~b.ipynb" ).data), Entry.file [1] 0o770)] (( "/a/b.ipynb" ).data)).2
      = .ok 7) ∧
    FS.find (read_notebook (fun b => if b = [1] then some 7 else none) true 2
        [((( "/a/b.ipynb" ).data), Entry.file [0] 0o770),
         ((( "/a/.~b.ipynb" ).data), Entry.file [1] 0o770)] (( "/a/b.ipynb" ).data)).1
        (( "/a/b.ipynb" ).data) = some (Entry.file [1] 0o770) ∧
    FS.find (read_notebook (fun b => if b = [1] then some 7 else none) true 2
        [((( "/a/b.ipynb" ).data), Entry.file [0] 0o770),
         ((( "/a/.~b.ipynb" ).data), Entry.file [1] 0o770)] (( "/a/b.ipynb" ).data)).1
        (( "/a/b.ipynb.invalid" ).data) = some (Entry.file [0] 0o770) := by
  have h1 := (C2_read_notebook (fun b => if b = [1] then some 7 else none)
    [((( "/a/b.ipynb" ).data), Entry.file [0] 0o770)] (( "/a/b.ipynb" ).data)
    [0] [1] 0o770 0o770 0 (by decide) (by decide)).1 false (Or.inl rfl)
  have h2 := (C2_read_notebook (fun b => if b = [1] then some 7 else none)
    [((( "/a/b.ipynb" ).data), Entry.file [0] 0o770),
     ((( "/a/.~b.ipynb" ).data), Entry.file [1] 0o770)] (( "/a/b.ipynb" ).data)
    [0] [1] 0o770 0o770 0 (by decide) (by decide)).2 (by decide) (by decide)
    (by decide) (by decide) (by decide) (by decide) (by decide)
  exact ⟨h1, h2.1.trans rfl, h2.2.1, h2.2.2.1⟩

/-- Claim C3: creating a checkpoint, then overwriting the live document
(through the repository's atomic write) with different content, then
restoring the checkpoint leaves the live document byte-identical to its
content at checkpoint-creation time. -/
theorem C3_checkpoint_roundtrip (cpDirName root : HPath) (fs : FS) (docPath : HPath)
    (c newData : Bytes) (pm : Nat)
    (h1 : FS.find fs (to_os_path root docPath) = some (.file c pm))
    (h2 : FS.find fs (cpDirOf cpDirName root docPath) = none)
    (h3 : FS.find fs (cpPathOf cpDirName root checkpointIdLit docPath) = none)
    (h4 : FS.find fs (path_to_intermediate (to_os_path root docPath)) = none)
    (n1 : to_os_path root docPath ≠ cpDirOf cpDirName root docPath)
    (n2 : to_os_path root docPath ≠ cpPathOf cpDirName root checkpointIdLit docPath)
    (n4 : cpPathOf cpDirName root checkpointIdLit docPath ≠ cpDirOf cpDirName root docPath)
    (ndl : isDescendant (path_to_intermediate (to_os_path root docPath))
      (to_os_path root docPath) = false)
    (ndc : isDescendant (path_to_intermediate (to_os_path root docPath))
      (cpPathOf cpDirName root checkpointIdLit docPath) = false)
    (ndd : isDescendant (path_to_intermediate (to_os_path root docPath))
      (cpDirOf cpDirName root docPath) = false) :
    (create_checkpoint cpDirName root fs docPath).2 = .ok ⟨checkpointIdLit⟩ ∧
    (mixin_atomic_writing true (create_checkpoint cpDirName root fs docPath).1
      (to_os_path root docPath) (.ok newData)).2 = none ∧
    (restore_checkpoint cpDirName root
      (mixin_atomic_writing true (create_checkpoint cpDirName root fs docPath).1
        (to_os_path root docPath) (.ok newData)).1
      checkpointIdLit docPath).2 = none ∧
    FS.find (restore_checkpoint cpDirName root
      (mixin_atomic_writing true (create_checkpoint cpDirName root fs docPath).1
        (to_os_path root docPath) (.ok newData)).1
      checkpointIdLit docPath).1 (to_os_path root docPath) = some (.file c 0o770) := by
  have hlt : to_os_path root docPath ≠ path_to_intermediate (to_os_path root docPath) :=
    Ne.symm (ne_of_isDescendant_false ndl)
  have htc : path_to_intermediate (to_os_path root docPath)
      ≠ cpPathOf cpDirName root checkpointIdLit docPath := ne_of_isDescendant_false ndc
  have htd : path_to_intermediate (to_os_path root docPath)
      ≠ cpDirOf cpDirName root docPath := ne_of_isDescendant_false ndd
  have hcp1 : checkpoint_path cpDirName root fs checkpointIdLit docPath =
      (FS.set fs (cpDirOf cpDirName root docPath) (.dir 0o770),
        .ok (cpPathOf cpDirName root checkpointIdLit docPath)) := by
    unfold checkpoint_path
    rw [hdfs_ensure_dir_exists_absent fs h2]
  have hAlive : FS.find (FS.set fs (cpDirOf cpDirName root docPath) (.dir 0o770))
      (to_os_path root docPath) = some (.file c pm) := by
    rw [FS.find_set_ne fs _ n1]
    exact h1
  have hAcpp : ∀ pm2, FS.find (FS.set fs (cpDirOf cpDirName root docPath) (.dir 0o770))
      (cpPathOf cpDirName root checkpointIdLit docPath) ≠ some (.dir pm2) := by
    intro pm2 hx
    rw [FS.find_set_ne fs _ n4, h3] at hx
    cases hx
  have hcopy1 := hdfs_copy_file_ok (FS.set fs (cpDirOf cpDirName root docPath) (.dir 0o770))
    n2 hAlive hAcpp
  have hBcpp : FS.find
      (FS.set (FS.set fs (cpDirOf cpDirName root docPath) (.dir 0o770))
        (cpPathOf cpDirName root checkpointIdLit docPath) (.file c 0o770))
      (cpPathOf cpDirName root checkpointIdLit docPath) = some (.file c 0o770) :=
    FS.find_set_self _ _ _
  have hcreate : create_checkpoint cpDirName root fs docPath =
      (FS.set (FS.set fs (cpDirOf cpDirName root docPath) (.dir 0o770))
        (cpPathOf cpDirName root checkpointIdLit docPath) (.file c 0o770),
        .ok ⟨checkpointIdLit⟩) := by
    unfold create_checkpoint
    simp only [hcp1, hcopy1, checkpoint_model, hBcpp]
  rw [hcreate]
  have hBlive : FS.find
      (FS.set (FS.set fs (cpDirOf cpDirName root docPath) (.dir 0o770))
        (cpPathOf cpDirName root checkpointIdLit docPath) (.file c 0o770))
      (to_os_path root docPath) = some (.file c pm) := by
    rw [FS.find_set_ne _ _ n2]
    exact hAlive
  have hBtmp : FS.find
      (FS.set (FS.set fs (cpDirOf cpDirName root docPath) (.dir 0o770))
        (cpPathOf cpDirName root checkpointIdLit docPath) (.file c 0o770))
      (path_to_intermediate (to_os_path root docPath)) = none := by
    rw [FS.find_set_ne _ _ htc, FS.find_set_ne _ _ htd]
    exact h4
  have hatomic := atomic_writing_ok_exists
    (FS.set (FS.set fs (cpDirOf cpDirName root docPath) (.dir 0o770))
      (cpPathOf cpDirName root checkpointIdLit docPath) (.file c 0o770))
    newData hBlive hBtmp hlt
  have hmix : mixin_atomic_writing true
      (FS.set (FS.set fs (cpDirOf cpDirName root docPath) (.dir 0o770))
        (cpPathOf cpDirName root checkpointIdLit docPath) (.file c 0o770))
      (to_os_path root docPath) (.ok newData) =
      (FS.eraseTree
        (FS.set
          (FS.set
            (FS.set (FS.set fs (cpDirOf cpDirName root docPath) (.dir 0o770))
              (cpPathOf cpDirName root checkpointIdLit docPath) (.file c 0o770))
            (path_to_intermediate (to_os_path root docPath)) (.file c 0o770))
          (to_os_path root docPath) (.file newData 0o770))
        (path_to_intermediate (to_os_path root docPath)), none) := by
    unfold mixin_atomic_writing
    rw [if_pos rfl]
    exact hatomic
  rw [hmix]
  have hCcpd : FS.find
      (FS.eraseTree
        (FS.set
          (FS.set
            (FS.set (FS.set fs (cpDirOf cpDirName root docPath) (.dir 0o770))
              (cpPathOf cpDirName root checkpointIdLit docPath) (.file c 0o770))
            (path_to_intermediate (to_os_path root docPath)) (.file c 0o770))
          (to_os_path root docPath) (.file newData 0o770))
        (path_to_intermediate (to_os_path root docPath)))
      (cpDirOf cpDirName root docPath) = some (.dir 0o770) := by
    rw [FS.find_eraseTree, if_neg (by rw [ndd]; exact fun h => nomatch h),
      FS.find_set_ne _ _ (Ne.symm n1), FS.find_set_ne _ _ (Ne.symm htd),
      FS.find_set_ne _ _ (Ne.symm n4)]
    exact FS.find_set_self _ _ _
  have hCcpp : FS.find
      (FS.eraseTree
        (FS.set
          (FS.set
            (FS.set (FS.set fs (cpDirOf cpDirName root docPath) (.dir 0o770))
              (cpPathOf cpDirName root checkpointIdLit docPath) (.file c 0o770))
            (path_to_intermediate (to_os_path root docPath)) (.file c 0o770))
          (to_os_path root docPath) (.file newData 0o770))
        (path_to_intermediate (to_os_path root docPath)))
      (cpPathOf cpDirName root checkpointIdLit docPath) = some (.file c 0o770) := by
    rw [FS.find_eraseTree, if_neg (by rw [ndc]; exact fun h => nomatch h),
      FS.find_set_ne _ _ (Ne.symm n2), FS.find_set_ne _ _ (Ne.symm htc)]
    exact FS.find_set_self _ _ _
  have hClive : ∀ pm2, FS.find
      (FS.eraseTree
        (FS.set
          (FS.set
            (FS.set (FS.set fs (cpDirOf cpDirName root docPath) (.dir 0o770))
              (cpPathOf cpDirName root checkpointIdLit docPath) (.file c 0o770))
            (path_to_intermediate (to_os_path root docPath)) (.file c 0o770))
          (to_os_path root docPath) (.file newData 0o770))
        (path_to_intermediate (to_os_path root docPath)))
      (to_os_path root docPath) ≠ some (.dir pm2) := by
    intro pm2 hx
    rw [FS.find_eraseTree, if_neg (by rw [ndl]; exact fun h => nomatch h),
      FS.find_set_self] at hx
    cases hx
  have hrescp : checkpoint_path cpDirName root
      (FS.eraseTree
        (FS.set
          (FS.set
            (FS.set (FS.set fs (cpDirOf cpDirName root docPath) (.dir 0o770))
              (cpPathOf cpDirName root checkpointIdLit docPath) (.file c 0o770))
            (path_to_intermediate (to_os_path root docPath)) (.file c 0o770))
          (to_os_path root docPath) (.file newData 0o770))
        (path_to_intermediate (to_os_path root docPath)))
      checkpointIdLit docPath =
      (FS.eraseTree
        (FS.set
          (FS.set
            (FS.set (FS.set fs (cpDirOf cpDirName root docPath) (.dir 0o770))
              (cpPathOf cpDirName root checkpointIdLit docPath) (.file c 0o770))
            (path_to_intermediate (to_os_path root docPath)) (.file c 0o770))
          (to_os_path root docPath) (.file newData 0o770))
        (path_to_intermediate (to_os_path root docPath)),
        .ok (cpPathOf cpDirName root checkpointIdLit docPath)) := by
    unfold checkpoint_path
    rw [hdfs_ensure_dir_exists_dir _ hCcpd]
  have hcopy2 := hdfs_copy_file_ok
    (FS.eraseTree
      (FS.set
        (FS.set
          (FS.set (FS.set fs (cpDirOf cpDirName root docPath) (.dir 0o770))
            (cpPathOf cpDirName root checkpointIdLit docPath) (.file c 0o770))
          (path_to_intermediate (to_os_path root docPath)) (.file c 0o770))
        (to_os_path root docPath) (.file newData 0o770))
      (path_to_intermediate (to_os_path root docPath)))
    (Ne.symm n2) hCcpp hClive
  have hrestore : restore_checkpoint cpDirName root
      (FS.eraseTree
        (FS.set
          (FS.set
            (FS.set (FS.set fs (cpDirOf cpDirName root docPath) (.dir 0o770))
              (cpPathOf cpDirName root checkpointIdLit docPath) (.file c 0o770))
            (path_to_intermediate (to_os_path root docPath)) (.file c 0o770))
          (to_os_path root docPath) (.file newData 0o770))
        (path_to_intermediate (to_os_path root docPath)))
      checkpointIdLit docPath =
      (FS.set
        (FS.eraseTree
          (FS.set
            (FS.set
              (FS.set (FS.set fs (cpDirOf cpDirName root docPath) (.dir 0o770))
                (cpPathOf cpDirName root checkpointIdLit docPath) (.file c 0o770))
              (path_to_intermediate (to_os_path root docPath)) (.file c 0o770))
            (to_os_path root docPath) (.file newData 0o770))
          (path_to_intermediate (to_os_path root docPath)))
        (to_os_path root docPath) (.file c 0o770), none) := by
    unfold restore_checkpoint
    simp only [hrescp, hcopy2]
  rw [hrestore]
  exact ⟨rfl, rfl, rfl, FS.find_set_self _ _ _⟩

theorem C3_checkpoint_roundtrip_witness :
    FS.find (restore_checkpoint (( ".ipynb_checkpoints" ).data) (( "/" ).data)
      (mixin_atomic_writing true
        (create_checkpoint (( ".ipynb_checkpoints" ).data) (( "/" ).data)
          [((( "/a/b.ipynb" ).data), Entry.file [1, 2] 0o770), ((( "/a" ).data), Entry.dir 0o770)]
          (( "a/b.ipynb" ).data)).1
        (( "/a/b.ipynb" ).data) (.ok [9, 9, 9])).1
      (( "checkpoint" ).data) (( "a/b.ipynb" ).data)).1 (( "/a/b.ipynb" ).data)
      = some (Entry.file [1, 2] 0o770) := by
  have h := C3_checkpoint_roundtrip (( ".ipynb_checkpoints" ).data) (( "/" ).data)
    [((( "/a/b.ipynb" ).data), Entry.file [1, 2] 0o770), ((( "/a" ).data), Entry.dir 0o770)]
    (( "a/b.ipynb" ).data) [1, 2] [9, 9, 9] 0o770
    (by decide) (by decide) (by decide) (by decide) (by decide) (by decide) (by decide)
    (by decide) (by decide) (by decide)
  exact h.2.2.2

theorem to_os_path_strip (root x : HPath) :
    to_os_path root (stripSlashes x) = to_os_path root x := by
  unfold to_os_path
  rw [stripSlashes_idem]

theorem cpDirOf_strip (cpDirName root x : HPath) :
    cpDirOf cpDirName root (stripSlashes x) = cpDirOf cpDirName root x := by
  unfold cpDirOf
  rw [stripSlashes_idem]

theorem cpPathOf_strip (cpDirName root cpId x : HPath) :
    cpPathOf cpDirName root cpId (stripSlashes x) = cpPathOf cpDirName root cpId x := by
  unfold cpPathOf cpDirOf cpFilenameOf
  rw [stripSlashes_idem]

/-- Claim C8: after a successful notebook save, at least one checkpoint
exists for the path: the notebook branch of `save` creates a checkpoint
exactly when none currently exists, so `list_checkpoints` returns exactly
one entry afterwards — both when no checkpoint existed before the save
(first save) and when one already did. -/
theorem C8_save_creates_checkpoint (cpDirName root : HPath) (fs : FS) (apiPath : HPath)
    (ser c cc : Bytes) (pm pmd pmc : Nat)
    (n1 : to_os_path root apiPath ≠ cpDirOf cpDirName root apiPath)
    (n2 : to_os_path root apiPath ≠ cpPathOf cpDirName root checkpointIdLit apiPath)
    (n4 : cpPathOf cpDirName root checkpointIdLit apiPath ≠ cpDirOf cpDirName root apiPath)
    (ndl : isDescendant (path_to_intermediate (to_os_path root apiPath))
      (to_os_path root apiPath) = false)
    (ndc : isDescendant (path_to_intermediate (to_os_path root apiPath))
      (cpPathOf cpDirName root checkpointIdLit apiPath) = false)
    (ndd : isDescendant (path_to_intermediate (to_os_path root apiPath))
      (cpDirOf cpDirName root apiPath) = false)
    (h4 : FS.find fs (path_to_intermediate (to_os_path root apiPath)) = none) :
    (FS.find fs (to_os_path root apiPath) = none →
      FS.find fs (cpDirOf cpDirName root apiPath) = none →
      FS.find fs (cpPathOf cpDirName root checkpointIdLit apiPath) = none →
      (save_notebook_model cpDirName root true fs apiPath ser).2 = none ∧
      (list_checkpoints cpDirName root (save_notebook_model cpDirName root true fs apiPath ser).1
        apiPath).2 = .ok [⟨checkpointIdLit⟩]) ∧
    (FS.find fs (to_os_path root apiPath) = some (.file c pm) →
      FS.find fs (cpDirOf cpDirName root apiPath) = some (.dir pmd) →
      FS.find fs (cpPathOf cpDirName root checkpointIdLit apiPath) = some (.file cc pmc) →
      (save_notebook_model cpDirName root true fs apiPath ser).2 = none ∧
      (list_checkpoints cpDirName root (save_notebook_model cpDirName root true fs apiPath ser).1
        apiPath).2 = .ok [⟨checkpointIdLit⟩]) := by
  have hlt : to_os_path root apiPath ≠ path_to_intermediate (to_os_path root apiPath) :=
    Ne.symm (ne_of_isDescendant_false ndl)
  have htc : path_to_intermediate (to_os_path root apiPath)
      ≠ cpPathOf cpDirName root checkpointIdLit apiPath := ne_of_isDescendant_false ndc
  have htd : path_to_intermediate (to_os_path root apiPath)
      ≠ cpDirOf cpDirName root apiPath := ne_of_isDescendant_false ndd
  constructor
  · intro e1 e2 e3
    have hatomic := atomic_writing_ok_fresh fs ser e1 h4 hlt
    have hmix : mixin_atomic_writing true fs (to_os_path root apiPath) (.ok ser)
        = (FS.set fs (to_os_path root apiPath) (.file ser 0o770), none) := by
      unfold mixin_atomic_writing
      rw [if_pos rfl]
      exact hatomic
    have hWcpd : FS.find (FS.set fs (to_os_path root apiPath) (.file ser 0o770))
        (cpDirOf cpDirName root apiPath) = none := by
      rw [FS.find_set_ne _ _ (Ne.symm n1)]
      exact e2
    have hcpW : checkpoint_path cpDirName root
        (FS.set fs (to_os_path root apiPath) (.file ser 0o770)) checkpointIdLit
        (stripSlashes (stripSlashes apiPath)) =
        (FS.set (FS.set fs (to_os_path root apiPath) (.file ser 0o770))
          (cpDirOf cpDirName root apiPath) (.dir 0o770),
          .ok (cpPathOf cpDirName root checkpointIdLit apiPath)) := by
      unfold checkpoint_path
      simp only [stripSlashes_idem, cpDirOf_strip, cpPathOf_strip]
      rw [hdfs_ensure_dir_exists_absent _ hWcpd]
    have h2cpp : FS.find
        (FS.set (FS.set fs (to_os_path root apiPath) (.file ser 0o770))
          (cpDirOf cpDirName root apiPath) (.dir 0o770))
        (cpPathOf cpDirName root checkpointIdLit apiPath) = none := by
      rw [FS.find_set_ne _ _ n4, FS.find_set_ne _ _ (Ne.symm n2)]
      exact e3
    have hlist1 : list_checkpoints cpDirName root
        (FS.set fs (to_os_path root apiPath) (.file ser 0o770)) (stripSlashes apiPath) =
        (FS.set (FS.set fs (to_os_path root apiPath) (.file ser 0o770))
          (cpDirOf cpDirName root apiPath) (.dir 0o770), .ok []) := by
      have hfe2 : hdfs_file_exists
          (FS.set (FS.set fs (to_os_path root apiPath) (.file ser 0o770))
            (cpDirOf cpDirName root apiPath) (.dir 0o770))
          (cpPathOf cpDirName root checkpointIdLit apiPath) = false := by
        unfold hdfs_file_exists
        rw [h2cpp]
      unfold list_checkpoints
      simp only [hcpW]
      rw [hfe2]
      rfl
    have h2cpd : FS.find
        (FS.set (FS.set fs (to_os_path root apiPath) (.file ser 0o770))
          (cpDirOf cpDirName root apiPath) (.dir 0o770))
        (cpDirOf cpDirName root apiPath) = some (.dir 0o770) := FS.find_set_self _ _ _
    have hcpW2 : checkpoint_path cpDirName root
        (FS.set (FS.set fs (to_os_path root apiPath) (.file ser 0o770))
          (cpDirOf cpDirName root apiPath) (.dir 0o770)) checkpointIdLit
        (stripSlashes apiPath) =
        (FS.set (FS.set fs (to_os_path root apiPath) (.file ser 0o770))
          (cpDirOf cpDirName root apiPath) (.dir 0o770),
          .ok (cpPathOf cpDirName root checkpointIdLit apiPath)) := by
      unfold checkpoint_path
      simp only [cpDirOf_strip, cpPathOf_strip]
      rw [hdfs_ensure_dir_exists_dir _ h2cpd]
    have h2live : FS.find
        (FS.set (FS.set fs (to_os_path root apiPath) (.file ser 0o770))
          (cpDirOf cpDirName root apiPath) (.dir 0o770))
        (to_os_path root apiPath) = some (.file ser 0o770) := by
      rw [FS.find_set_ne _ _ n1]
      exact FS.find_set_self _ _ _
    have h2cppnd : ∀ pm2, FS.find
        (FS.set (FS.set fs (to_os_path root apiPath) (.file ser 0o770))
          (cpDirOf cpDirName root apiPath) (.dir 0o770))
        (cpPathOf cpDirName root checkpointIdLit apiPath) ≠ some (.dir pm2) := by
      intro pm2 hx
      rw [h2cpp] at hx
      cases hx
    have hcopy := hdfs_copy_file_ok
      (FS.set (FS.set fs (to_os_path root apiPath) (.file ser 0o770))
        (cpDirOf cpDirName root apiPath) (.dir 0o770)) n2 h2live h2cppnd
    have h3cpp : FS.find
        (FS.set (FS.set (FS.set fs (to_os_path root apiPath) (.file ser 0o770))
          (cpDirOf cpDirName root apiPath) (.dir 0o770))
          (cpPathOf cpDirName root checkpointIdLit apiPath) (.file ser 0o770))
        (cpPathOf cpDirName root checkpointIdLit apiPath) = some (.file ser 0o770) :=
      FS.find_set_self _ _ _
    have hcreate : create_checkpoint cpDirName root
        (FS.set (FS.set fs (to_os_path root apiPath) (.file ser 0o770))
          (cpDirOf cpDirName root apiPath) (.dir 0o770)) (stripSlashes apiPath) =
        (FS.set (FS.set (FS.set fs (to_os_path root apiPath) (.file ser 0o770))
          (cpDirOf cpDirName root apiPath) (.dir 0o770))
          (cpPathOf cpDirName root checkpointIdLit apiPath) (.file ser 0o770),
          .ok ⟨checkpointIdLit⟩) := by
      unfold create_checkpoint
      simp only [hcpW2, to_os_path_strip, hcopy, checkpoint_model, h3cpp]
    have hsave : save_notebook_model cpDirName root true fs apiPath ser =
        (FS.set (FS.set (FS.set fs (to_os_path root apiPath) (.file ser 0o770))
          (cpDirOf cpDirName root apiPath) (.dir 0o770))
          (cpPathOf cpDirName root checkpointIdLit apiPath) (.file ser 0o770), none) := by
      unfold save_notebook_model
      simp only [to_os_path_strip, hmix, hlist1, hcreate, List.isEmpty_nil]
      rfl
    rw [hsave]
    have h3cpd : FS.find
        (FS.set (FS.set (FS.set fs (to_os_path root apiPath) (.file ser 0o770))
          (cpDirOf cpDirName root apiPath) (.dir 0o770))
          (cpPathOf cpDirName root checkpointIdLit apiPath) (.file ser 0o770))
        (cpDirOf cpDirName root apiPath) = some (.dir 0o770) := by
      rw [FS.find_set_ne _ _ (Ne.symm n4)]
      exact FS.find_set_self _ _ _
    have hcpW3 : checkpoint_path cpDirName root
        (FS.set (FS.set (FS.set fs (to_os_path root apiPath) (.file ser 0o770))
          (cpDirOf cpDirName root apiPath) (.dir 0o770))
          (cpPathOf cpDirName root checkpointIdLit apiPath) (.file ser 0o770)) checkpointIdLit
        (stripSlashes apiPath) =
        (FS.set (FS.set (FS.set fs (to_os_path root apiPath) (.file ser 0o770))
          (cpDirOf cpDirName root apiPath) (.dir 0o770))
          (cpPathOf cpDirName root checkpointIdLit apiPath) (.file ser 0o770),
          .ok (cpPathOf cpDirName root checkpointIdLit apiPath)) := by
      unfold checkpoint_path
      simp only [cpDirOf_strip, cpPathOf_strip]
      rw [hdfs_ensure_dir_exists_dir _ h3cpd]
    refine ⟨rfl, ?_⟩
    have hfe3 : hdfs_file_exists
        (FS.set (FS.set (FS.set fs (to_os_path root apiPath) (.file ser 0o770))
          (cpDirOf cpDirName root apiPath) (.dir 0o770))
          (cpPathOf cpDirName root checkpointIdLit apiPath) (.file ser 0o770))
        (cpPathOf cpDirName root checkpointIdLit apiPath) = true := by
      unfold hdfs_file_exists
      rw [h3cpp]
    have hcm3 : checkpoint_model
        (FS.set (FS.set (FS.set fs (to_os_path root apiPath) (.file ser 0o770))
          (cpDirOf cpDirName root apiPath) (.dir 0o770))
          (cpPathOf cpDirName root checkpointIdLit apiPath) (.file ser 0o770))
        checkpointIdLit (cpPathOf cpDirName root checkpointIdLit apiPath)
        = .ok ⟨checkpointIdLit⟩ := by
      unfold checkpoint_model
      rw [h3cpp]
    unfold list_checkpoints
    simp only [hcpW3]
    rw [hfe3, if_pos rfl, hcm3]
  · intro e1 e2 e3
    have hatomic := atomic_writing_ok_exists fs ser e1 h4 hlt
    have hmix : mixin_atomic_writing true fs (to_os_path root apiPath) (.ok ser)
        = (FS.eraseTree
            (FS.set (FS.set fs (path_to_intermediate (to_os_path root apiPath)) (.file c 0o770))
              (to_os_path root apiPath) (.file ser 0o770))
            (path_to_intermediate (to_os_path root apiPath)), none) := by
      unfold mixin_atomic_writing
      rw [if_pos rfl]
      exact hatomic
    have hWcpd : FS.find
        (FS.eraseTree
          (FS.set (FS.set fs (path_to_intermediate (to_os_path root apiPath)) (.file c 0o770))
            (to_os_path root apiPath) (.file ser 0o770))
          (path_to_intermediate (to_os_path root apiPath)))
        (cpDirOf cpDirName root apiPath) = some (.dir pmd) := by
      rw [FS.find_eraseTree, if_neg (by rw [ndd]; exact fun h => nomatch h),
        FS.find_set_ne _ _ (Ne.symm n1), FS.find_set_ne _ _ (Ne.symm htd)]
      exact e2
    have hWcpp : FS.find
        (FS.eraseTree
          (FS.set (FS.set fs (path_to_intermediate (to_os_path root apiPath)) (.file c 0o770))
            (to_os_path root apiPath) (.file ser 0o770))
          (path_to_intermediate (to_os_path root apiPath)))
        (cpPathOf cpDirName root checkpointIdLit apiPath) = some (.file cc pmc) := by
      rw [FS.find_eraseTree, if_neg (by rw [ndc]; exact fun h => nomatch h),
        FS.find_set_ne _ _ (Ne.symm n2), FS.find_set_ne _ _ (Ne.symm htc)]
      exact e3
    have hcpW : checkpoint_path cpDirName root
        (FS.eraseTree
          (FS.set (FS.set fs (path_to_intermediate (to_os_path root apiPath)) (.file c 0o770))
            (to_os_path root apiPath) (.file ser 0o770))
          (path_to_intermediate (to_os_path root apiPath))) checkpointIdLit
        (stripSlashes (stripSlashes apiPath)) =
        (FS.eraseTree
          (FS.set (FS.set fs (path_to_intermediate (to_os_path root apiPath)) (.file c 0o770))
            (to_os_path root apiPath) (.file ser 0o770))
          (path_to_intermediate (to_os_path root apiPath)),
          .ok (cpPathOf cpDirName root checkpointIdLit apiPath)) := by
      unfold checkpoint_path
      simp only [stripSlashes_idem, cpDirOf_strip, cpPathOf_strip]
      rw [hdfs_ensure_dir_exists_dir _ hWcpd]
    have hlist1 : list_checkpoints cpDirName root
        (FS.eraseTree
          (FS.set (FS.set fs (path_to_intermediate (to_os_path root apiPath)) (.file c 0o770))
            (to_os_path root apiPath) (.file ser 0o770))
          (path_to_intermediate (to_os_path root apiPath))) (stripSlashes apiPath) =
        (FS.eraseTree
          (FS.set (FS.set fs (path_to_intermediate (to_os_path root apiPath)) (.file c 0o770))
            (to_os_path root apiPath) (.file ser 0o770))
          (path_to_intermediate (to_os_path root apiPath)), .ok [⟨checkpointIdLit⟩]) := by
      have hfeW : hdfs_file_exists
          (FS.eraseTree
            (FS.set (FS.set fs (path_to_intermediate (to_os_path root apiPath)) (.file c 0o770))
              (to_os_path root apiPath) (.file ser 0o770))
            (path_to_intermediate (to_os_path root apiPath)))
          (cpPathOf cpDirName root checkpointIdLit apiPath) = true := by
        unfold hdfs_file_exists
        rw [hWcpp]
      have hcmW : checkpoint_model
          (FS.eraseTree
            (FS.set (FS.set fs (path_to_intermediate (to_os_path root apiPath)) (.file c 0o770))
              (to_os_path root apiPath) (.file ser 0o770))
            (path_to_intermediate (to_os_path root apiPath)))
          checkpointIdLit (cpPathOf cpDirName root checkpointIdLit apiPath)
          = .ok ⟨checkpointIdLit⟩ := by
        unfold checkpoint_model
        rw [hWcpp]
      unfold list_checkpoints
      simp only [hcpW]
      rw [hfeW, if_pos rfl, hcmW]
    have hsave : save_notebook_model cpDirName root true fs apiPath ser =
        (FS.eraseTree
          (FS.set (FS.set fs (path_to_intermediate (to_os_path root apiPath)) (.file c 0o770))
            (to_os_path root apiPath) (.file ser 0o770))
          (path_to_intermediate (to_os_path root apiPath)), none) := by
      unfold save_notebook_model
      simp only [to_os_path_strip, hmix, hlist1]
      rfl
    rw [hsave]
    have hcpW2 : checkpoint_path cpDirName root
        (FS.eraseTree
          (FS.set (FS.set fs (path_to_intermediate (to_os_path root apiPath)) (.file c 0o770))
            (to_os_path root apiPath) (.file ser 0o770))
          (path_to_intermediate (to_os_path root apiPath))) checkpointIdLit
        (stripSlashes apiPath) =
        (FS.eraseTree
          (FS.set (FS.set fs (path_to_intermediate (to_os_path root apiPath)) (.file c 0o770))
            (to_os_path root apiPath) (.file ser 0o770))
          (path_to_intermediate (to_os_path root apiPath)),
          .ok (cpPathOf cpDirName root checkpointIdLit apiPath)) := by
      unfold checkpoint_path
      simp only [cpDirOf_strip, cpPathOf_strip]
      rw [hdfs_ensure_dir_exists_dir _ hWcpd]
    refine ⟨rfl, ?_⟩
    have hfeW2 : hdfs_file_exists
        (FS.eraseTree
          (FS.set (FS.set fs (path_to_intermediate (to_os_path root apiPath)) (.file c 0o770))
            (to_os_path root apiPath) (.file ser 0o770))
          (path_to_intermediate (to_os_path root apiPath)))
        (cpPathOf cpDirName root checkpointIdLit apiPath) = true := by
      unfold hdfs_file_exists
      rw [hWcpp]
    have hcmW2 : checkpoint_model
        (FS.eraseTree
          (FS.set (FS.set fs (path_to_intermediate (to_os_path root apiPath)) (.file c 0o770))
            (to_os_path root apiPath) (.file ser 0o770))
          (path_to_intermediate (to_os_path root apiPath)))
        checkpointIdLit (cpPathOf cpDirName root checkpointIdLit apiPath)
        = .ok ⟨checkpointIdLit⟩ := by
      unfold checkpoint_model
      rw [hWcpp]
    unfold list_checkpoints
    simp only [hcpW2]
    rw [hfeW2, if_pos rfl, hcmW2]

theorem C8_save_creates_checkpoint_witness :
    (save_notebook_model (( ".ipynb_checkpoints" ).data) (( "/" ).data) true
      [((( "/a" ).data), Entry.dir 0o770)] (( "a/b.ipynb" ).data) [5]).2 = none ∧
    (list_checkpoints (( ".ipynb_checkpoints" ).data) (( "/" ).data)
      (save_notebook_model (( ".ipynb_checkpoints" ).data) (( "/" ).data) true
        [((( "/a" ).data), Entry.dir 0o770)] (( "a/b.ipynb" ).data) [5]).1
      (( "a/b.ipynb" ).data)).2 = .ok [⟨( "checkpoint" ).data⟩] := by
  have h := (C8_save_creates_checkpoint (( ".ipynb_checkpoints" ).data) (( "/" ).data)
    [((( "/a" ).data), Entry.dir 0o770)] (( "a/b.ipynb" ).data) [5] [] [] 0 0 0
    (by decide) (by decide) (by decide) (by decide) (by decide) (by decide) (by decide)).1
    (by decide) (by decide) (by decide)
  exact h

theorem b64Val_b64Char : ∀ v : Nat, v < 64 → b64Val (b64Char v) = some v := by decide

theorem b64Char_ne61 : ∀ v : Nat, v < 64 → b64Char v ≠ 61 := by decide

theorem b64Char_lt128 : ∀ v : Nat, v < 64 → b64Char v < 128 := by decide

theorem b64_roundtrip : ∀ b : Bytes, (∀ x ∈ b, x < 256) → b64Decode (b64Encode b) = some b
  | [], _ => rfl
  | [a], hb => by
    have ha : a < 256 := hb a (by simp)
    have h1 : a / 4 < 64 := by omega
    have h2 : a % 4 * 16 < 64 := by omega
    simp [b64Encode, b64Decode, b64Val_b64Char _ h1, b64Val_b64Char _ h2]
    omega
  | [a, b], hb => by
    have ha : a < 256 := hb a (by simp)
    have hb2 : b < 256 := hb b (by simp)
    have h1 : a / 4 < 64 := by omega
    have h2 : a % 4 * 16 + b / 16 < 64 := by omega
    have h3 : b % 16 * 4 < 64 := by omega
    have h61 := b64Char_ne61 _ h3
    simp [b64Encode, b64Decode, b64Val_b64Char _ h1, b64Val_b64Char _ h2,
      b64Val_b64Char _ h3, h61]
    omega
  | a :: b :: c :: rest, hb => by
    have ha : a < 256 := hb a (by simp)
    have hb2 : b < 256 := hb b (by simp)
    have hc : c < 256 := hb c (by simp)
    have ih := b64_roundtrip rest (fun x hx => hb x (by simp [hx]))
    have h1 : a / 4 < 64 := by omega
    have h2 : a % 4 * 16 + b / 16 < 64 := by omega
    have h3 : b % 16 * 4 + c / 64 < 64 := by omega
    have h4 : c % 64 < 64 := by omega
    have h61 := b64Char_ne61 _ h3
    have h61b := b64Char_ne61 _ h4
    simp [b64Encode, b64Decode, b64Val_b64Char _ h1, b64Val_b64Char _ h2,
      b64Val_b64Char _ h3, b64Val_b64Char _ h4, h61, h61b, ih]
    omega

theorem b64Encode_lt128 : ∀ b : Bytes, (∀ x ∈ b, x < 256) → ∀ y ∈ b64Encode b, y < 128
  | [], _ => by simp [b64Encode]
  | [a], hb => by
    have ha : a < 256 := hb a (by simp)
    intro y hy
    simp only [b64Encode, List.mem_cons, List.not_mem_nil, or_false] at hy
    rcases hy with h | h | h | h <;> subst h
    · exact b64Char_lt128 _ (by omega)
    · exact b64Char_lt128 _ (by omega)
    · omega
    · omega
  | [a, b], hb => by
    have ha : a < 256 := hb a (by simp)
    have hb2 : b < 256 := hb b (by simp)
    intro y hy
    simp only [b64Encode, List.mem_cons, List.not_mem_nil, or_false] at hy
    rcases hy with h | h | h | h <;> subst h
    · exact b64Char_lt128 _ (by omega)
    · exact b64Char_lt128 _ (by omega)
    · exact b64Char_lt128 _ (by omega)
    · omega
  | a :: b :: c :: rest, hb => by
    have ha : a < 256 := hb a (by simp)
    have hb2 : b < 256 := hb b (by simp)
    have hc : c < 256 := hb c (by simp)
    have ih := b64Encode_lt128 rest (fun x hx => hb x (by simp [hx]))
    intro y hy
    simp only [b64Encode, List.mem_cons] at hy
    rcases hy with h | h | h | h | h
    · subst h; exact b64Char_lt128 _ (by omega)
    · subst h; exact b64Char_lt128 _ (by omega)
    · subst h; exact b64Char_lt128 _ (by omega)
    · subst h; exact b64Char_lt128 _ (by omega)
    · exact ih y h

/-- Claim C5: after writing a byte sequence `b` through `_save_file` with
format `"base64"` (the content being the base64 encoding of `b`), reading
the path through `_read_file` with format unspecified returns the UTF-8
decoding of `b` with resolved format `"text"` when `b` is valid UTF-8, and
the base64 encoding of `b` with resolved format `"base64"` when it is not;
and reading with format explicitly `"text"` fails with BadFormat (HTTP
400) when `b` is not valid UTF-8. -/
theorem C5_save_read_roundtrip (fs : FS) (p : HPath) (b : Bytes)
    (hb : ∀ x ∈ b, x < 256)
    (hne : p ≠ path_to_intermediate p)
    (htmp : FS.find fs (path_to_intermediate p) = none)
    (hp : FS.find fs p = none) :
    (save_file true fs p (b64Encode b) (some base64Lit)).2 = none ∧
    (∀ t, utf8Decode b = some t →
      read_file (save_file true fs p (b64Encode b) (some base64Lit)).1 p none
        = .ok (t, textLit)) ∧
    (utf8Decode b = none →
      read_file (save_file true fs p (b64Encode b) (some base64Lit)).1 p none
        = .ok (b64Encode b, base64Lit) ∧
      read_file (save_file true fs p (b64Encode b) (some base64Lit)).1 p (some textLit)
        = .error .badFormat) := by
  have hall : (b64Encode b).all (fun c => decide (c < 128)) = true := by
    rw [List.all_eq_true]
    intro x hx
    simpa using b64Encode_lt128 b hb x hx
  have hsave : save_file true fs p (b64Encode b) (some base64Lit)
      = (FS.set fs p (.file b 0o770), none) := by
    unfold save_file
    rw [if_neg (by simp [textLit, base64Lit])]
    rw [if_neg (by simp [textLit, base64Lit]), hall, if_pos rfl, b64_roundtrip b hb]
    unfold mixin_atomic_writing
    show atomic_writing fs p (BodyOutcome.ok b) = _
    exact atomic_writing_ok_fresh fs b hp htmp hne
  have hfe : hdfs_file_exists (FS.set fs p (.file b 0o770)) p = true := by
    unfold hdfs_file_exists
    rw [FS.find_set_self]
  refine ⟨by rw [hsave], ?_, ?_⟩
  · intro t ht
    rw [hsave]
    unfold read_file
    simp [hfe, FS.find_set_self, ht]
  · intro ht
    constructor
    · rw [hsave]
      unfold read_file
      simp [hfe, FS.find_set_self, ht, textLit, base64Lit]
    · rw [hsave]
      unfold read_file
      simp [hfe, FS.find_set_self, ht]

theorem C5_save_read_roundtrip_witness :
    (save_file true [] (( "/f" ).data) (b64Encode [65]) (some base64Lit)).2 = none ∧
    read_file (save_file true [] (( "/f" ).data) (b64Encode [65]) (some base64Lit)).1
        (( "/f" ).data) none = .ok ([65], textLit) ∧
    read_file (save_file true [] (( "/f" ).data) (b64Encode [255]) (some base64Lit)).1
        (( "/f" ).data) none = .ok (b64Encode [255], base64Lit) ∧
    read_file (save_file true [] (( "/f" ).data) (b64Encode [255]) (some base64Lit)).1
        (( "/f" ).data) (some textLit) = .error .badFormat := by
  have hA := C5_save_read_roundtrip [] (( "/f" ).data) [65]
    (by decide) (by decide) (by decide) (by decide)
  have hB := C5_save_read_roundtrip [] (( "/f" ).data) [255]
    (by decide) (by decide) (by decide) (by decide)
  exact ⟨hA.1, hA.2.1 [65] (by decide), (hB.2.2 (by decide)).1, (hB.2.2 (by decide)).2⟩
